import Mathlib

set_option maxHeartbeats 1000000

/-!
Verification of the report-construction core of `run_jira_report.py`
(repository `ds2600/jira-reports`): the comment-document text extractor
(`parse_comment`), the per-epic grouping/sorting/row-layout logic
(`generate_excel_report`), the second-pass formatter (`format_excel_file`),
and the comment-timestamp parsing in `fetch_most_recent_comment`.

Python values flowing through `parse_comment` come from `response.json()`,
so they are JSON-shaped; they are embedded as the inductive type `J` below.
-/

/-- JSON values: the inputs of `parse_comment` (`comment_json` and its
sub-structures always come from `response.json()`). -/
inductive J where
  | str (s : String)
  | num (n : Int)
  | bool (b : Bool)
  | null
  | arr (xs : List J)
  | obj (fields : List (String × J))

/-- Python `v == "lit"` for a string literal: true exactly when `v` is the
string `lit`; comparing a non-string JSON value to a string is `False`, not
an error. -/
def isStr (v : J) (lit : String) : Bool :=
  match v with
  | .str t => t == lit
  | _ => false

/-- The Python exceptions the embedded fragments of `parse_comment` can raise.
`fuelOut` is an artifact of the explicit recursion budget in `parseBlockF`;
it is unreachable from `parseBlock` because the recursion depth of
`parse_block` is bounded (see the comment on `parseBlockF`). -/
inductive PyErr where
  | keyError (k : String)
  | typeError
  | fuelOut
  deriving DecidableEq

/-- Python `x[k]` for a string key `k`: dict lookup raising `KeyError` when the
key is missing, and `TypeError` when `x` is not a dict (indexing a
list/str/int/bool/None with a string key raises `TypeError`). -/
def getItem (x : J) (k : String) : Except PyErr J :=
  match x with
  | .obj fields =>
      match fields.lookup k with
      | some v => .ok v
      | none => .error (.keyError k)
  | _ => .error .typeError

/-- Python `x.get(k, d)` on a dict. `parse_comment` calls `.get` only on
values already known to be dicts (after `isinstance(..., dict)` or after a
successful `x["type"]`), so the non-dict arm is never exercised; it returns
the default for totality of the embedding. -/
def dictGet (x : J) (k : String) (d : J) : J :=
  match x with
  | .obj fields => ((fields.lookup k).getD d)
  | _ => d

/-- Python `for x in v`: lists iterate their elements, strings iterate their
characters, dicts iterate their keys; numbers, booleans and None raise
`TypeError`. -/
def pyIter (v : J) : Except PyErr (List J) :=
  match v with
  | .arr xs => .ok xs
  | .str s => .ok (s.data.map fun c => J.str (String.singleton c))
  | .obj fields => .ok (fields.map fun kv => J.str kv.fst)
  | _ => .error .typeError

/-- The parts list as strings, or the `TypeError` that `str.join` raises on
the first non-string element. -/
def asStrings : List J → Except PyErr (List String)
  | [] => .ok []
  | J.str s :: rest =>
      match asStrings rest with
      | .ok tail => .ok (s :: tail)
      | .error e => .error e
  | _ :: _ => .error .typeError

/-- Python `sep.join(parts)` where `parts` were collected as raw JSON values
(line 203: `" ".join(paragraph_text)`): raises `TypeError` unless every
collected part is a string. -/
def strJoin (sep : String) (parts : List J) : Except PyErr String :=
  match asStrings parts with
  | .ok ss => .ok (String.intercalate sep ss)
  | .error e => .error e

/-- Decimal digit character. -/
def digitChar (n : Nat) : Char := Char.ofNat (48 + n)

/-- Fuel-driven decimal rendering of a natural number (fuel `n+1` always
suffices); mirrors Python's `str(int)` as used by `json.dumps`. -/
def natDigitsF : Nat → Nat → List Char → List Char
  | 0, _, acc => acc
  | f + 1, n, acc =>
      if n < 10 then digitChar n :: acc
      else natDigitsF f (n / 10) (digitChar (n % 10) :: acc)

/-- Decimal rendering of a natural number. -/
def natRepr (n : Nat) : String := String.mk (natDigitsF (n + 1) n [])

/-- Decimal rendering of an integer, as Python prints it. -/
def intRepr : Int → String
  | .ofNat m => natRepr m
  | .negSucc m => "-" ++ natRepr (m + 1)

/-- JSON string escaping for the common escapes; `json.dumps` escapes more
(control characters, non-ASCII with `ensure_ascii`), but no claim inspects
the escaped text, only that the dump is a non-empty deterministic string. -/
def jEscapeChar (c : Char) : String :=
  if c = '"' then "\\\""
  else if c = '\\' then "\\\\"
  else if c = '\n' then "\\n"
  else if c = '\t' then "\\t"
  else if c = '\r' then "\\r"
  else String.singleton c

/-- JSON string escaping. -/
def jEscape (s : String) : String := String.join (s.data.map jEscapeChar)

/-- Indentation emitted by `json.dumps(..., indent=2)` at nesting `level`. -/
def jIndent (level : Nat) : String := String.mk (List.replicate (2 * level) ' ')

mutual

/-- Model of `json.dumps(v, indent=2)` (line 234). Python raises `TypeError`
on values that are not JSON-serializable, but every `J` value is. -/
def jdumpsV : Nat → J → String
  | _, .null => "null"
  | _, .bool true => "true"
  | _, .bool false => "false"
  | _, .num n => intRepr n
  | _, .str s => "\"" ++ jEscape s ++ "\""
  | _, .arr [] => "[]"
  | level, .arr (x :: xs) =>
      "[\n" ++ jIndent (level + 1) ++ jdumpsV (level + 1) x ++
        jdumpsRest (level + 1) xs ++ "\n" ++ jIndent level ++ "]"
  | _, .obj [] => "\x7b\x7d"
  | level, .obj (f :: fs) =>
      "\x7b\n" ++ jIndent (level + 1) ++ jdumpsField (level + 1) f ++
        jdumpsFieldsRest (level + 1) fs ++ "\n" ++ jIndent level ++ "\x7d"

/-- Remaining array items, each preceded by `",\n" ++ indent`. -/
def jdumpsRest : Nat → List J → String
  | _, [] => ""
  | level, x :: xs => ",\n" ++ jIndent level ++ jdumpsV level x ++ jdumpsRest level xs

/-- One `"key": value` member. -/
def jdumpsField : Nat → String × J → String
  | level, (k, v) => "\"" ++ jEscape k ++ "\": " ++ jdumpsV level v

/-- Remaining object members, each preceded by `",\n" ++ indent`. -/
def jdumpsFieldsRest : Nat → List (String × J) → String
  | _, [] => ""
  | level, f :: fs => ",\n" ++ jIndent level ++ jdumpsField level f ++ jdumpsFieldsRest level fs

end

/-- `json.dumps(comment_json, indent=2)` as called on line 234. -/
def jdumps (v : J) : String := jdumpsV 0 v

/-- Loop body of the `"paragraph"` branch (lines 199-202): walk the block's
`content`, collecting `content["text"]` of every child whose
`content["type"] == "text"`; failures (`KeyError` on a child without a
`"type"`, `TypeError` on a non-dict child) surface in iteration order. -/
def paragraphParts : List J → Except PyErr (List J)
  | [] => .ok []
  | c :: cs => do
      let ct ← getItem c "type"
      if isStr ct "text" then
        let tx ← getItem c "text"
        let rest ← paragraphParts cs
        pure (tx :: rest)
      else paragraphParts cs

/-- Loop body shared by the `"listItem"` branch (children typed
`"paragraph"`, lines 207-209) and the `"orderedList"`/`"bulletList"` branch
(children typed `"listItem"`, lines 214-216): recursively parse every child
whose `["type"]` equals `tyName`, skipping the rest. -/
def childParts (tyName : String) (pb : J → Except PyErr String) :
    List J → Except PyErr (List String)
  | [] => .ok []
  | c :: cs => do
      let ct ← getItem c "type"
      if isStr ct tyName then
        let r ← pb c
        let rest ← childParts tyName pb cs
        pure (r :: rest)
      else childParts tyName pb cs

/-- Top-level loop of `parse_comment` (lines 225-228): parse each block and
keep the non-empty results, in order. -/
def docParts (pb : J → Except PyErr String) : List J → Except PyErr (List String)
  | [] => .ok []
  | b :: bs => do
      let r ← pb b
      let rest ← docParts pb bs
      pure (if r = "" then rest else r :: rest)

/-- `parse_block` (lines 190-220) with an explicit recursion budget.
The Python recursion only descends from an `"orderedList"`/`"bulletList"`
block into `"listItem"`-typed children, and from a `"listItem"` block into
`"paragraph"`-typed children, whose branch makes no further recursive call;
so the call depth never exceeds three and any budget `≥ 3` computes the
function's true value. `parseBlock` passes 4. -/
def parseBlockF : Nat → J → Except PyErr String
  | 0, _ => .error .fuelOut
  | fuel + 1, block => do
      let t ← getItem block "type"
      if isStr t "paragraph" then
        let content ← pyIter (dictGet block "content" (J.arr []))
        let parts ← paragraphParts content
        strJoin " " parts
      else if isStr t "listItem" then
        let content ← pyIter (dictGet block "content" (J.arr []))
        let parts ← childParts "paragraph" (parseBlockF fuel) content
        pure ("- " ++ String.intercalate " " parts)
      else if isStr t "orderedList" || isStr t "bulletList" then
        let content ← pyIter (dictGet block "content" (J.arr []))
        let parts ← childParts "listItem" (parseBlockF fuel) content
        pure (String.intercalate "\n" parts)
      else
        pure ""

/-- `parse_block` (lines 190-220). -/
def parseBlock (b : J) : Except PyErr String := parseBlockF 4 b

/-- `parse_comment` (lines 182-234): a dict whose `.get("type")` equals
`"doc"` is reduced block by block, keeping non-empty block texts joined by
newlines; anything else falls back to `json.dumps(comment_json, indent=2)`. -/
def parseComment (c : J) : Except PyErr String :=
  match c with
  | .obj fields =>
      if isStr ((fields.lookup "type").getD J.null) "doc" then
        match pyIter (dictGet (J.obj fields) "content" (J.arr [])) with
        | .error e => .error e
        | .ok blocks =>
            match docParts parseBlock blocks with
            | .error e => .error e
            | .ok parts => .ok (String.intercalate "\n" parts)
      else .ok (jdumps (J.obj fields))
  | other => .ok (jdumps other)

/-! ## Spec-side document denotation (for the refinement claims about
`parse_comment`). `SBlock` is the spec's `DocumentBlock` restricted to the
well-formed shapes §4.1 describes: a paragraph is a list of text runs, a
list is a list of list items, each item a list of paragraphs. The
`spec...` functions below follow the spec's words, to be compared with the
source-derived `parseComment`; the `...J` builders produce the JSON these
abstract documents arrive as. -/

/-- Abstract well-formed block: spec §3 `DocumentBlock` without `Unknown`. -/
inductive SBlock where
  | para (texts : List String)
  | list (ordered : Bool) (items : List (List (List String)))

/-- Spec §4.1: a paragraph is the text of its runs joined by single spaces. -/
def specParagraph (texts : List String) : String := String.intercalate " " texts

/-- Spec §4.1: a list item is its child paragraphs joined by a space,
prefixed with `"- "`. -/
def specListItem (paras : List (List String)) : String :=
  "- " ++ String.intercalate " " (paras.map specParagraph)

/-- Spec §4.1: each block's text. -/
def specBlock : SBlock → String
  | .para texts => specParagraph texts
  | .list _ items => String.intercalate "\n" (items.map specListItem)

/-- Spec §4.1: non-empty top-level block results joined with newlines. -/
def specDoc (blocks : List SBlock) : String :=
  String.intercalate "\n" ((blocks.map specBlock).filter (· ≠ ""))

/-- JSON shape of a text run. -/
def textJ (t : String) : J := J.obj [("type", J.str "text"), ("text", J.str t)]

/-- JSON shape of a paragraph block. -/
def paraJ (texts : List String) : J :=
  J.obj [("type", J.str "paragraph"), ("content", J.arr (texts.map textJ))]

/-- JSON shape of a list item. -/
def itemJ (paras : List (List String)) : J :=
  J.obj [("type", J.str "listItem"), ("content", J.arr (paras.map paraJ))]

/-- JSON shape of an ordered or bullet list. -/
def listJ (ordered : Bool) (items : List (List (List String))) : J :=
  J.obj [("type", J.str (if ordered then "orderedList" else "bulletList")),
         ("content", J.arr (items.map itemJ))]

/-- JSON shape of an abstract block. -/
def blockJ : SBlock → J
  | .para texts => paraJ texts
  | .list ordered items => listJ ordered items

/-- JSON shape of a whole document root. -/
def docJ (blocks : List SBlock) : J :=
  J.obj [("type", J.str "doc"), ("content", J.arr (blocks.map blockJ))]

/-- A `"listItem"` block with arbitrary JSON children (for the claims about
which children a list item consumes). -/
def listItemJ (children : List J) : J :=
  J.obj [("type", J.str "listItem"), ("content", J.arr children)]

/-- Does this JSON child carry `["type"] == "paragraph"`? (The only children
a `"listItem"` block consumes, lines 207-209.) -/
def isParagraphTyped (c : J) : Bool :=
  match getItem c "type" with
  | .ok t => isStr t "paragraph"
  | .error _ => false

/-! ## Well-formedness of comment documents (the condition under which
`parse_comment` cannot raise; its violation is exactly what makes the
extractor partial). -/

/-- Does `c["type"]` succeed (i.e. `c` is a dict with a `"type"` key)? -/
def hasTypeField (c : J) : Bool :=
  match getItem c "type" with
  | .ok _ => true
  | .error _ => false

/-- Does `c["type"]` succeed and equal the string `ty`? -/
def typedAs (c : J) (ty : String) : Bool :=
  match getItem c "type" with
  | .ok t => isStr t ty
  | .error _ => false

/-- Does `c[k]` succeed with a string value? -/
def hasStrField (c : J) (k : String) : Bool :=
  match getItem c k with
  | .ok (J.str _) => true
  | _ => false

/-- A child a paragraph block can iterate without failing: a dict with a
`"type"`, and if typed `"text"` its `["text"]` must exist and be a string
(else the final `" ".join` raises `TypeError`). -/
def wfTextChild (c : J) : Bool :=
  hasTypeField c && (!typedAs c "text" || hasStrField c "text")

/-- The `content` of a paragraph-typed node is a list of `wfTextChild`s. -/
def wfParaBody (n : J) : Bool :=
  match dictGet n "content" (J.arr []) with
  | .arr cs => cs.all wfTextChild
  | _ => false

/-- A child a `"listItem"` block can iterate without failing. -/
def wfLIChild (c : J) : Bool :=
  hasTypeField c && (!typedAs c "paragraph" || wfParaBody c)

/-- The `content` of a listItem-typed node is a list of `wfLIChild`s. -/
def wfLIBody (n : J) : Bool :=
  match dictGet n "content" (J.arr []) with
  | .arr cs => cs.all wfLIChild
  | _ => false

/-- A child an `"orderedList"`/`"bulletList"` block can iterate safely. -/
def wfListChild (c : J) : Bool :=
  hasTypeField c && (!typedAs c "listItem" || wfLIBody c)

/-- The `content` of a list-typed node is a list of `wfListChild`s. -/
def wfListBody (n : J) : Bool :=
  match dictGet n "content" (J.arr []) with
  | .arr cs => cs.all wfListChild
  | _ => false

/-- A top-level block `parse_block` can process without raising. -/
def wfBlock (b : J) : Bool :=
  hasTypeField b &&
  (!typedAs b "paragraph" || wfParaBody b) &&
  (!typedAs b "listItem" || wfLIBody b) &&
  (!(typedAs b "orderedList" || typedAs b "bulletList") || wfListBody b)

/-- Is the input a dict with `.get("type") == "doc"` (line 222)? -/
def isDocRoot (j : J) : Bool :=
  match j with
  | .obj fields => isStr ((fields.lookup "type").getD J.null) "doc"
  | _ => false

/-- The inputs on which `parse_comment` cannot raise: non-doc inputs always
fall back to the dump; doc inputs need an array `content` of `wfBlock`s. -/
def wfCommentInput (j : J) : Bool :=
  if isDocRoot j then
    match dictGet j "content" (J.arr []) with
    | .arr bs => bs.all wfBlock
    | _ => false
  else true

/-- Code-point lexicographic "strictly less" on character lists: Python's
`str < str`, and the order `String.lt` denotes (structurally computable,
unlike the built-in `String.ltb`). -/
def charListLt : List Char → List Char → Bool
  | _, [] => false
  | [], _ :: _ => true
  | a :: as, b :: bs => if a < b then true else if b < a then false else charListLt as bs

/-- Python string comparison `a < b`. -/
def strLt (a b : String) : Bool := charListLt a.data b.data

/-- Python `str.strip()`: drop leading and trailing whitespace (Python
strips all Unicode whitespace; the statuses involved only carry ASCII
whitespace, which `Char.isWhitespace` covers). -/
def pyStrip (s : String) : String :=
  String.mk (((s.data.dropWhile Char.isWhitespace).reverse.dropWhile
    Char.isWhitespace).reverse)

/-! ## The report builder (`generate_excel_report`, lines 236-300).

`main` accumulates one Python dict per issue into `data`;
`generate_excel_report` turns it into `pd.DataFrame(data)`, groups by
`"Epic Key"`, sorts each group's tasks and sub-tasks, and appends plain
rows (lists of cells) into `excel_data`.

pandas semantics captured here:
 * `pd.DataFrame(list-of-dicts)` has one column per key occurring in ANY
   dict; a row lacking the key gets NaN there, and looking up a column no
   dict mentions raises `KeyError`.
 * `groupby("Epic Key")` (default `sort=True`, `dropna=True`) yields the
   groups in ascending key order, rows with a NaN key dropped, each group's
   rows in original order.
 * `sort_values` over several columns is a stable lexicographic sort;
   `na_position='last'` puts NaN last within each column regardless of
   `ascending`. -/

/-- One dict appended to `data`. `main` builds three shapes: the task dict
(`process_child_issue`, lines 433-443), the sub-task dict
(`process_sub_task`, lines 462-473), and the no-tasks placeholder
(lines 548-555), which omits the `"Type"`, `"Child Status"`, `"Parent"` and
`"Indent"` keys entirely. Accordingly `none` in `type`/`childStatus`/
`parent`/`indent` means the key is absent from the dict, while `none` in
`commentDate`/`comment` means the key is present with value `None` (every
shape carries those keys). -/
structure Record where
  epicKey : Option String
  epicSummary : Option String
  childKey : Option String
  childSummary : Option String
  childStatus : Option String
  commentDate : Option String
  comment : Option String
  type : Option String
  parent : Option String
  indent : Option Nat
  deriving DecidableEq

/-- A cell of `excel_data`: the Python lists hold strings, ints (the indent
column) and NaN/None. -/
inductive Cell where
  | str (s : String)
  | nat (n : Nat)
  | nan
  deriving DecidableEq

/-- An optional string as a DataFrame cell. -/
def cellS : Option String → Cell
  | some s => .str s
  | none => .nan

/-- Does the DataFrame own a `"Type"` column (some dict has the key)? -/
def hasColType (data : List Record) : Bool := data.any fun r => r.type.isSome

/-- Does the DataFrame own a `"Child Status"` column? -/
def hasColChildStatus (data : List Record) : Bool := data.any fun r => r.childStatus.isSome

/-- Does the DataFrame own a `"Parent"` column? -/
def hasColParent (data : List Record) : Bool := data.any fun r => r.parent.isSome

/-- Does the DataFrame own an `"Indent"` column? -/
def hasColIndent (data : List Record) : Bool := data.any fun r => r.indent.isSome

/-- `status_order` (line 251) applied through `.map(status_order).fillna(5)`
(line 258): unrecognised statuses and NaN both land in bucket 5 with
`"Done"`. -/
def statusBucket : Option String → Nat
  | some "In Progress" => 1
  | some "Waiting" => 2
  | some "For approval" => 3
  | some "New" => 4
  | _ => 5

/-- Strict "sorts before" on the `"Comment Date"` column: descending on the
formatted strings, NaN last (`na_position='last'`). -/
def dateLt : Option String → Option String → Bool
  | some x, some y => strLt y x
  | some _, none => true
  | none, _ => false

/-- Tie in the `"Comment Date"` sort key. -/
def dateKeyEq : Option String → Option String → Bool
  | some x, some y => x == y
  | none, none => true
  | _, _ => false

/-- Strict "sorts before" on the `"Parent"` column: ascending, NaN last. -/
def parentLt : Option String → Option String → Bool
  | some x, some y => strLt x y
  | some _, none => true
  | none, _ => false

/-- Lexicographic sort key of `child_issues.sort_values` (lines 256-261):
status bucket ascending, then comment date descending. -/
def ltTask (a b : Record) : Bool :=
  statusBucket a.childStatus < statusBucket b.childStatus ||
    (statusBucket a.childStatus == statusBucket b.childStatus &&
      dateLt a.commentDate b.commentDate)

/-- Lexicographic sort key of `sub_tasks.sort_values` (lines 262-267):
status bucket ascending, comment date descending, then parent ascending. -/
def ltSub (a b : Record) : Bool :=
  statusBucket a.childStatus < statusBucket b.childStatus ||
    (statusBucket a.childStatus == statusBucket b.childStatus &&
      (dateLt a.commentDate b.commentDate ||
        (dateKeyEq a.commentDate b.commentDate && parentLt a.parent b.parent)))

/-- Insert `a` before the first element it strictly precedes (after all
elements tied with it): one step of a stable sort. -/
def insertAfterEq (lt : α → α → Bool) (a : α) : List α → List α
  | [] => [a]
  | b :: l => if lt a b then a :: b :: l else b :: insertAfterEq lt a l

/-- Stable sort by a strict comparator, the order `sort_values` produces. -/
def sortStable (lt : α → α → Bool) (l : List α) : List α :=
  l.foldl (fun acc a => insertAfterEq lt a acc) []

/-- Insert into a strictly-ascending list of keys, dropping duplicates. -/
def insertKey (k : String) : List String → List String
  | [] => [k]
  | x :: l =>
      if strLt k x then k :: x :: l
      else if k = x then x :: l
      else x :: insertKey k l

/-- The keys `groupby("Epic Key")` iterates, in its (ascending) order; rows
whose `"Epic Key"` is NaN are dropped. -/
def groupbyKeys (data : List Record) : List String :=
  (data.filterMap (fun r => r.epicKey)).foldl (fun acc k => insertKey k acc) []

/-- One group: the rows with the given epic key, in original order. -/
def epicGroup (data : List Record) (k : String) : List Record :=
  data.filter fun r => r.epicKey == some k

/-- `group[group["Type"] == "Task"]` sorted by lines 256-261. -/
def sortedChildren (data : List Record) (k : String) : List Record :=
  sortStable ltTask ((epicGroup data k).filter fun r => r.type == some "Task")

/-- `group[group["Type"] == "Sub-Task"]` sorted by lines 262-267. -/
def sortedSubs (data : List Record) (k : String) : List Record :=
  sortStable ltSub ((epicGroup data k).filter fun r => r.type == some "Sub-Task")

/-- `sub_tasks["Parent"] == child_key` (line 281): false when either side is
NaN (`NaN == x` is false in pandas). -/
def parentMatches (s2 c : Record) : Bool :=
  match s2.parent, c.childKey with
  | some p, some k => p == k
  | _, _ => false

/-- The sub-task rows emitted directly under task `c` (lines 281-282). -/
def subsOf (data : List Record) (k : String) (c : Record) : List Record :=
  (sortedSubs data k).filter fun s2 => parentMatches s2 c

/-- `row.get("Indent", default)` as a cell: the default applies only when
the whole DataFrame lacks the `"Indent"` column; otherwise the row's own
value (NaN when the dict omitted it). -/
def indentCell (data : List Record) (ind : Option Nat) (dflt : Nat) : Cell :=
  if hasColIndent data then
    match ind with
    | some n => .nat n
    | none => .nan
  else .nat dflt

/-- The epic header row (line 248): six cells, the first
`f"{epic_summary} ({epic_key})"`. A NaN summary prints as `"nan"` in the
f-string; `main` always supplies one. -/
def headerRow (data : List Record) (k : String) : List Cell :=
  let summaryText :=
    match ((epicGroup data k).head?).bind (fun r => r.epicSummary) with
    | some s => s
    | none => "nan"
  [.str (summaryText ++ " (" ++ k ++ ")"), .str "", .str "", .str "", .str "", .str ""]

/-- A task row (lines 271-279): seven cells. -/
def taskRowCells (data : List Record) (c : Record) : List Cell :=
  [.str "", cellS c.childKey, cellS c.childSummary, cellS c.childStatus,
   cellS c.commentDate, cellS c.comment, indentCell data c.indent 0]

/-- A sub-task row (lines 283-291): seven cells. -/
def subRowCells (data : List Record) (s2 : Record) : List Cell :=
  [.str "", cellS s2.childKey, cellS s2.childSummary, cellS s2.childStatus,
   cellS s2.commentDate, cellS s2.comment, indentCell data s2.indent 1]

/-- The spacer row (line 293): the `"ยง"` sentinel and six empty cells. -/
def spacerRow : List Cell :=
  [.str "ยง", .str "", .str "", .str "", .str "", .str "", .str ""]

/-- All rows one epic group contributes (lines 246-293): header, then per
sorted task its row followed by its sub-task rows, then the spacer. -/
def epicSection (data : List Record) (k : String) : List (List Cell) :=
  headerRow data k ::
    ((sortedChildren data k).flatMap fun c =>
      taskRowCells data c :: (subsOf data k c).map (subRowCells data))
    ++ [spacerRow]

/-- `generate_excel_report` (lines 236-300) up to the file write: the value
of `excel_data`, or the column name of the `KeyError` pandas raises. An
empty `data` gives a DataFrame with no columns, so `groupby("Epic Key")`
raises; a present-but-all-NaN `"Epic Key"` column yields zero groups and an
empty report. With at least one group, the first group's processing touches
(in order) the `"Type"` filter (line 252), the child sort's
`"Child Status"` (line 256) and the sub-task sort's `"Parent"` (line 262);
`"Comment Date"`, `"Epic Summary"`, `"Child Key"`, `"Child Summary"` and
`"Most Recent Comment"` columns exist whenever `data` is non-empty, since
every dict shape `main` builds carries those keys. -/
def generateExcelReport (data : List Record) : Except String (List (List Cell)) :=
  if data.isEmpty then .error "Epic Key"
  else
    let keys := groupbyKeys data
    if keys.isEmpty then .ok []
    else if !hasColType data then .error "Type"
    else if !hasColChildStatus data then .error "Child Status"
    else if !hasColParent data then .error "Parent"
    else .ok (keys.flatMap (epicSection data))

/-! ## Annotated rows: the same layout with each row tagged by its origin,
used to state structural properties of the row sequence (which record a
row renders, and for a sub-task row which task it was emitted under). -/

/-- A layout row tagged with its origin. -/
inductive ARow where
  | header (k : String)
  | task (c : Record)
  | sub (parent : Record) (s2 : Record)
  | spacer
  deriving DecidableEq

/-- Is this an emitted sub-task row? -/
def ARow.isSub : ARow → Bool
  | .sub _ _ => true
  | _ => false

/-- The annotated rows of one epic group. -/
def annotatedSection (data : List Record) (k : String) : List ARow :=
  .header k ::
    ((sortedChildren data k).flatMap fun c =>
      ARow.task c :: (subsOf data k c).map (ARow.sub c))
    ++ [.spacer]

/-- The annotated rows of the whole report. -/
def annotatedReport (data : List Record) : List ARow :=
  (groupbyKeys data).flatMap (annotatedSection data)

/-- Forget the annotation, recovering the literal `excel_data` row. -/
def eraseA (data : List Record) : ARow → List Cell
  | .header k => headerRow data k
  | .task c => taskRowCells data c
  | .sub _ s2 => subRowCells data s2
  | .spacer => spacerRow

/-! ## The formatting pass (`format_excel_file`, lines 302-420).

The generated rows reach the formatter through an `.xlsx` round-trip:
`pd.DataFrame(excel_data).to_excel(...)` pads the short header rows with
NaN, writes NaN and empty strings as blank cells, and `load_workbook` reads
a blank cell as `None`; ints survive as ints. -/

/-- A cell value as `load_workbook` sees it. -/
inductive XCell where
  | s (v : String)
  | i (v : Nat)
  deriving DecidableEq

/-- The `.xlsx` round-trip of one generated cell: empty strings and NaN read
back as `None`. -/
def wcell : Cell → Option XCell
  | .str s => if s = "" then none else some (.s s)
  | .nat n => some (.i n)
  | .nan => none

/-- Column `i` (0 = A .. 6 = G) of a generated row as the formatter reads
it; a short row's missing trailing cells are `None`. -/
def readCell (row : List Cell) (i : Nat) : Option XCell := (row[i]?).bind wcell

/-- `str(first_cell.value) if first_cell.value else ""` (line 359):
falsy values (`None`, `0`, `""`) give `""`. -/
def cellValueStr : Option XCell → String
  | some (.s s) => s
  | some (.i n) => if n = 0 then "" else natRepr n
  | none => ""

/-- Python `str(v)` (line 360): `str(None)` is `"None"`. -/
def pyStr : Option XCell → String
  | some (.s s) => s
  | some (.i n) => natRepr n
  | none => "None"

/-- `re.match(r'.+\(NOOPT-\d+\)$', s)` (line 326): one or more non-newline
characters, then `"(NOOPT-"`, one or more digits, then `")"` at the end
(`$` also matches just before a single trailing newline; `\d` is any
Unicode decimal in Python, ASCII here). -/
def matchesEpicHeader (s : String) : Bool :=
  let cs := if s.data.getLast? = some '\n' then s.data.dropLast else s.data
  match cs.reverse with
  | ')' :: rest =>
      let ds := rest.takeWhile Char.isDigit
      let rest2 := rest.drop ds.length
      (decide (ds ≠ [])) && rest2.take 7 == "-TPOON(".data &&
        (decide (rest2.drop 7 ≠ [])) && (rest2.drop 7).all (· ≠ '\n')
  | _ => false

/-- What the formatting loop (lines 357-411) decides for one row. -/
structure RowFmt where
  /-- The row matched the epic-header pattern (line 363): merged `A:F` and
  header-styled; no indent/Done processing happens. -/
  isHeader : Bool
  /-- `indent_level` (lines 368-375): from the `G` cell when present, else 1;
  forced to 3 when the `A` cell is the `"ยง"` sentinel. -/
  indentLevel : Nat
  /-- The value the loop writes back into column `A` (`row_key` for a task
  row, `""` for sub-task and spacer rows; headers keep their text). -/
  newA : Option String
  /-- Columns (0 = A .. 5 = F) filled with the Done color by
  `apply_done_style` (lines 345-352, triggered at line 408). -/
  doneCols : List Nat
  deriving DecidableEq

/-- One iteration of the formatting loop (lines 357-411). A non-empty
string in `G` would make `int()` raise `ValueError`; no row the generator
emits carries one (data rows hold ints there, the header row has no `G`,
and the spacer's `""` reads back as `None`), so that arm returns the int 0
merely for totality. -/
def rowFmt (row : List Cell) : RowFmt :=
  let a := readCell row 0
  let cellValue := cellValueStr a
  let rowKey0 := pyStr (readCell row 1)
  if matchesEpicHeader cellValue then
    ⟨true, 0, none, []⟩
  else
    let p : Nat × String :=
      match readCell row 6 with
      | some (.i n) => (n, rowKey0)
      | some (.s _) => (0, rowKey0)
      | none => (1, "")
    let indent := if a = some (.s "ยง") then 3 else p.1
    let newA := if indent = 0 then some p.2 else some ""
    let doneHit :=
      match readCell row 3 with
      | some (.s d) => pyStrip d == "Done"
      | some (.i _) => false
      | none => false
    let doneCols :=
      if doneHit then if indent = 0 then [0, 1, 2, 3, 4, 5] else [1, 2, 3, 4, 5]
      else []
    ⟨false, indent, newA, doneCols⟩

/-! ## Comment-timestamp parsing (`fetch_most_recent_comment`, lines 153-158).

`datetime.strptime(comment_date, '%Y-%m-%dT%H:%M:%S.%f%z')` is tried first;
on `ValueError` the code retries with `'%Y-%m-%dT%H:%M:%S%z'`, and a second
`ValueError` propagates. CPython's `_strptime` compiles each directive to a
regex (quoted below) with `re.IGNORECASE`, requires the whole string to be
consumed, and then builds a `datetime`, which validates ranges
(`ValueError` on an impossible date, second > 59, or a UTC offset not
strictly within 24 hours). The embedding follows those regexes field by
field (greedily; the alternations are ordered as in `_strptime.TimeRE`). -/

/-- The numeric value of a decimal digit character, if it is one. -/
def digitVal (c : Char) : Option Nat :=
  if '0' ≤ c ∧ c ≤ '9' then some (c.toNat - 48) else none

/-- `%Y` : `\d\d\d\d` (exactly four digits). -/
def parseYear4 : List Char → Option (Nat × List Char)
  | c1 :: c2 :: c3 :: c4 :: rest =>
      match digitVal c1, digitVal c2, digitVal c3, digitVal c4 with
      | some d1, some d2, some d3, some d4 =>
          some (1000 * d1 + 100 * d2 + 10 * d3 + d4, rest)
      | _, _, _, _ => none
  | _ => none

/-- `%m` : `1[0-2]|0[1-9]|[1-9]`. -/
def parseMonth : List Char → Option (Nat × List Char)
  | [] => none
  | c1 :: rest1 =>
      match rest1 with
      | c2 :: rest2 =>
          if c1 = '1' ∧ '0' ≤ c2 ∧ c2 ≤ '2' then some (10 + (c2.toNat - 48), rest2)
          else if c1 = '0' ∧ '1' ≤ c2 ∧ c2 ≤ '9' then some (c2.toNat - 48, rest2)
          else if '1' ≤ c1 ∧ c1 ≤ '9' then some (c1.toNat - 48, rest1)
          else none
      | [] => if '1' ≤ c1 ∧ c1 ≤ '9' then some (c1.toNat - 48, []) else none

/-- `%d` : `3[01]|[12]\d|0[1-9]|[1-9]`. -/
def parseDay : List Char → Option (Nat × List Char)
  | [] => none
  | c1 :: rest1 =>
      match rest1 with
      | c2 :: rest2 =>
          if c1 = '3' ∧ '0' ≤ c2 ∧ c2 ≤ '1' then some (30 + (c2.toNat - 48), rest2)
          else if ('1' ≤ c1 ∧ c1 ≤ '2') ∧ '0' ≤ c2 ∧ c2 ≤ '9' then
            some (10 * (c1.toNat - 48) + (c2.toNat - 48), rest2)
          else if c1 = '0' ∧ '1' ≤ c2 ∧ c2 ≤ '9' then some (c2.toNat - 48, rest2)
          else if '1' ≤ c1 ∧ c1 ≤ '9' then some (c1.toNat - 48, rest1)
          else none
      | [] => if '1' ≤ c1 ∧ c1 ≤ '9' then some (c1.toNat - 48, []) else none

/-- `%H` : `2[0-3]|[0-1]\d|\d`. -/
def parseHour : List Char → Option (Nat × List Char)
  | [] => none
  | c1 :: rest1 =>
      match rest1 with
      | c2 :: rest2 =>
          if c1 = '2' ∧ '0' ≤ c2 ∧ c2 ≤ '3' then some (20 + (c2.toNat - 48), rest2)
          else if ('0' ≤ c1 ∧ c1 ≤ '1') ∧ '0' ≤ c2 ∧ c2 ≤ '9' then
            some (10 * (c1.toNat - 48) + (c2.toNat - 48), rest2)
          else if '0' ≤ c1 ∧ c1 ≤ '9' then some (c1.toNat - 48, rest1)
          else none
      | [] => if '0' ≤ c1 ∧ c1 ≤ '9' then some (c1.toNat - 48, []) else none

/-- `%M` : `[0-5]\d|\d`. -/
def parseMinute : List Char → Option (Nat × List Char)
  | [] => none
  | c1 :: rest1 =>
      match rest1 with
      | c2 :: rest2 =>
          if ('0' ≤ c1 ∧ c1 ≤ '5') ∧ '0' ≤ c2 ∧ c2 ≤ '9' then
            some (10 * (c1.toNat - 48) + (c2.toNat - 48), rest2)
          else if '0' ≤ c1 ∧ c1 ≤ '9' then some (c1.toNat - 48, rest1)
          else none
      | [] => if '0' ≤ c1 ∧ c1 ≤ '9' then some (c1.toNat - 48, []) else none

/-- `%S` : `6[0-1]|[0-5]\d|\d` (the regex admits leap seconds 60-61; the
`datetime` constructor then rejects them). -/
def parseSecond : List Char → Option (Nat × List Char)
  | [] => none
  | c1 :: rest1 =>
      match rest1 with
      | c2 :: rest2 =>
          if c1 = '6' ∧ '0' ≤ c2 ∧ c2 ≤ '1' then some (60 + (c2.toNat - 48), rest2)
          else if ('0' ≤ c1 ∧ c1 ≤ '5') ∧ '0' ≤ c2 ∧ c2 ≤ '9' then
            some (10 * (c1.toNat - 48) + (c2.toNat - 48), rest2)
          else if '0' ≤ c1 ∧ c1 ≤ '9' then some (c1.toNat - 48, rest1)
          else none
      | [] => if '0' ≤ c1 ∧ c1 ≤ '9' then some (c1.toNat - 48, []) else none

/-- Up to `n` leading digits (greedy), with the remaining input. -/
def takeDigits : Nat → List Char → (List Nat × List Char)
  | 0, cs => ([], cs)
  | _ + 1, [] => ([], [])
  | n + 1, c :: cs =>
      match digitVal c with
      | some d =>
          match takeDigits n cs with
          | (ds, rest) => (d :: ds, rest)
      | none => ([], c :: cs)

/-- `%f` : `[0-9]{1,6}` greedy; the value is right-padded with zeros to
microseconds (`_strptime` does `int(s + "0" * (6 - len(s)))`). -/
def parseFrac (cs : List Char) : Option (Nat × List Char) :=
  match takeDigits 6 cs with
  | ([], _) => none
  | (ds, rest) => some ((ds.foldl (fun a d => 10 * a + d) 0) * 10 ^ (6 - ds.length), rest)

/-- `\d\d`. -/
def parse2Any : List Char → Option (Nat × List Char)
  | c1 :: c2 :: rest =>
      match digitVal c1, digitVal c2 with
      | some d1, some d2 => some (10 * d1 + d2, rest)
      | _, _ => none
  | _ => none

/-- `[0-5]\d`. -/
def parse2Low : List Char → Option (Nat × List Char)
  | c1 :: c2 :: rest =>
      if ('0' ≤ c1 ∧ c1 ≤ '5') ∧ '0' ≤ c2 ∧ c2 ≤ '9' then
        some (10 * (c1.toNat - 48) + (c2.toNat - 48), rest)
      else none
  | _ => none

/-- `:?` (greedy optional colon). -/
def skipColon : List Char → List Char
  | [] => []
  | c :: rest => if c = ':' then rest else c :: rest

/-- `%z` : `[+-]\d\d:?[0-5]\d(:?[0-5]\d(\.\d{1,6})?)?|(?-i:Z)`, yielding the
UTC offset in microseconds. -/
def parseZ : List Char → Option (Int × List Char)
  | [] => none
  | sign :: rest =>
      if sign = 'Z' then some (0, rest)
      else if sign = '+' ∨ sign = '-' then
        match parse2Any rest with
        | none => none
        | some (hh, r1) =>
            match parse2Low (skipColon r1) with
            | none => none
            | some (mm, r2) =>
                let smr : Nat × Nat × List Char :=
                  match parse2Low (skipColon r2) with
                  | some (s2, ra) =>
                      match ra with
                      | '.' :: rb =>
                          match parseFrac rb with
                          | some (f, rc) => (s2, f, rc)
                          | none => (s2, 0, ra)
                      | _ => (s2, 0, ra)
                  | none => (0, 0, r2)
                let totalMicro : Int :=
                  ((hh * 3600 + mm * 60 + smr.1) * 1000000 + smr.2.1 : Nat)
                some ((if sign = '-' then -totalMicro else totalMicro), smr.2.2)
      else none

/-- The literal `T` separator; the whole pattern is compiled with
`re.IGNORECASE`, so `t` matches too. -/
def expectT : List Char → Option (List Char)
  | c :: rest => if c = 'T' ∨ c = 't' then some rest else none
  | [] => none

/-- A required literal character. -/
def expectChar (c : Char) : List Char → Option (List Char)
  | x :: rest => if x = c then some rest else none
  | [] => none

/-- A parsed, validated aware datetime. -/
structure TS where
  year : Nat
  month : Nat
  day : Nat
  hour : Nat
  minute : Nat
  second : Nat
  micro : Nat
  /-- UTC offset in microseconds. -/
  offMicro : Int
  deriving DecidableEq

/-- Gregorian leap year. -/
def isLeapYear (y : Nat) : Bool := y % 4 = 0 && (y % 100 ≠ 0 || y % 400 = 0)

/-- Length of a month. -/
def daysInMonth (y m : Nat) : Nat :=
  if m = 2 then (if isLeapYear y then 29 else 28)
  else if m = 4 ∨ m = 6 ∨ m = 9 ∨ m = 11 then 30
  else 31

/-- The `datetime(...)`/`timezone(...)` construction at the end of
`_strptime`: rejects out-of-range fields (including the leap seconds the
`%S` regex admitted, day numbers past the month's end, year 0, and offsets
not strictly within 24 hours). -/
def mkDatetime (y mo d h mi s micro : Nat) (off : Int) : Option TS :=
  if 1 ≤ y ∧ y ≤ 9999 ∧ 1 ≤ mo ∧ mo ≤ 12 ∧ 1 ≤ d ∧ d ≤ daysInMonth y mo ∧
     h ≤ 23 ∧ mi ≤ 59 ∧ s ≤ 59 ∧ micro ≤ 999999 ∧
     off.natAbs < 24 * 3600 * 1000000 then
    some ⟨y, mo, d, h, mi, s, micro, off⟩
  else none

/-- `datetime.strptime(s, '%Y-%m-%dT%H:%M:%S.%f%z')` when `withFrac`, else
`datetime.strptime(s, '%Y-%m-%dT%H:%M:%S%z')`; `none` models `ValueError`.
The whole input must be consumed. -/
def strptimeCore (withFrac : Bool) (cs : List Char) : Option TS := do
  let (y, r1) ← parseYear4 cs
  let r2 ← expectChar '-' r1
  let (mo, r3) ← parseMonth r2
  let r4 ← expectChar '-' r3
  let (d, r5) ← parseDay r4
  let r6 ← expectT r5
  let (h, r7) ← parseHour r6
  let r8 ← expectChar ':' r7
  let (mi, r9) ← parseMinute r8
  let r10 ← expectChar ':' r9
  let (s, r11) ← parseSecond r10
  if withFrac then
    let r12 ← expectChar '.' r11
    let (f, r13) ← parseFrac r12
    let (off, r14) ← parseZ r13
    if r14 = [] then mkDatetime y mo d h mi s f off else none
  else
    let (off, r12) ← parseZ r11
    if r12 = [] then mkDatetime y mo d h mi s 0 off else none

/-- Two decimal digits, zero-padded. -/
def pad2 (n : Nat) : List Char := [digitChar (n / 10 % 10), digitChar (n % 10)]

/-- Four decimal digits, zero-padded (what `%Y` prints for 1000-9999). -/
def pad4 (n : Nat) : List Char :=
  [digitChar (n / 1000 % 10), digitChar (n / 100 % 10), digitChar (n / 10 % 10),
   digitChar (n % 10)]

/-- Six decimal digits, zero-padded. -/
def pad6 (n : Nat) : List Char :=
  [digitChar (n / 100000 % 10), digitChar (n / 10000 % 10), digitChar (n / 1000 % 10),
   digitChar (n / 100 % 10), digitChar (n / 10 % 10), digitChar (n % 10)]

/-- `%z` in `strftime`: sign, `HHMM`, seconds appended when the offset has
any, fraction appended when it has microseconds (CPython
`datetime._format_offset`; a zero offset prints `+0000`). -/
def renderOffset (off : Int) : List Char :=
  let sign := if off < 0 then '-' else '+'
  let a := off.natAbs
  let asec := a / 1000000
  let amicro := a % 1000000
  let hh := asec / 3600
  let mm := asec % 3600 / 60
  let ss := asec % 60
  sign :: (pad2 hh ++ pad2 mm ++
    (if ss = 0 ∧ amicro = 0 then []
     else pad2 ss ++ (if amicro = 0 then [] else '.' :: pad6 amicro)))

/-- `dt.strftime('%Y-%m-%d %H:%M:%S %z')` (line 158). -/
def strftimeDisplay (t : TS) : String :=
  String.mk (pad4 t.year ++ '-' :: pad2 t.month ++ '-' :: pad2 t.day ++
    ' ' :: pad2 t.hour ++ ':' :: pad2 t.minute ++ ':' :: pad2 t.second ++
    ' ' :: renderOffset t.offMicro)

/-- Lines 153-158 of `fetch_most_recent_comment`: try the fractional format,
fall back to the plain one, format the result for display; a failure of
both parses is the uncaught `ValueError`. -/
def formatCommentDate (s : String) : Except String String :=
  match strptimeCore true s.data with
  | some t => .ok (strftimeDisplay t)
  | none =>
      match strptimeCore false s.data with
      | some t => .ok (strftimeDisplay t)
      | none => .error "ValueError"

/-- The exact date-time part `YYYY-MM-DDTHH:MM:SS` of the spec's wording
(spec §6: the two accepted timestamp shapes). -/
def specDatePart : List Char → Bool
  | [y1, y2, y3, y4, a1, m1, m2, a2, d1, d2, t, h1, h2, a3, n1, n2, a4, s1, s2] =>
      ([y1, y2, y3, y4, m1, m2, d1, d2, h1, h2, n1, n2, s1, s2].all Char.isDigit) &&
        a1 == '-' && a2 == '-' && t == 'T' && a3 == ':' && a4 == ':'
  | _ => false

/-- The exact offset part `±HHMM` of the spec's wording. -/
def specOffsetPart : List Char → Bool
  | [sg, z1, z2, z3, z4] => (sg == '+' || sg == '-') && [z1, z2, z3, z4].all Char.isDigit
  | _ => false

/-- Spec-side shape `YYYY-MM-DDTHH:MM:SS±HHMM`, read literally. -/
def specExactPlain (s : String) : Bool :=
  s.data.length = 24 && specDatePart (s.data.take 19) && specOffsetPart (s.data.drop 19)

/-- Spec-side shape `YYYY-MM-DDTHH:MM:SS.ffffff±HHMM`, read literally. -/
def specExactFrac (s : String) : Bool :=
  s.data.length = 31 && specDatePart (s.data.take 19) &&
    (match s.data.drop 19 with
     | '.' :: rest => (rest.take 6).all Char.isDigit && specOffsetPart (rest.drop 6)
     | _ => false)

/-- ASCII lower-casing of one character. -/
def asciiLower (c : Char) : Char :=
  if 'A' ≤ c ∧ c ≤ 'Z' then Char.ofNat (c.toNat + 32) else c

/-- The claim's "case and surrounding-whitespace normalization" test for the
Done highlight, read literally: strip surrounding whitespace, fold case,
compare with `"Done"`. -/
def claimedDoneTest (status : String) : Bool :=
  String.mk ((pyStrip status).data.map asciiLower) == "done"

/-! ## The three dict shapes `main` builds. -/

/-- The placeholder dict appended for an epic with no child issues
(lines 548-555): no `"Type"`, `"Child Status"`, `"Parent"` or `"Indent"`
key. -/
def placeholderRecord (ek es : String) : Record :=
  { epicKey := some ek, epicSummary := some es,
    childKey := some "", childSummary := some "No tasks created",
    childStatus := none, commentDate := some "", comment := some "",
    type := none, parent := none, indent := none }

/-- The task dict `process_child_issue` appends (lines 433-443). -/
def taskRecord (ek es key summary status : String) (commentDate : Option String)
    (comment : String) : Record :=
  { epicKey := some ek, epicSummary := some es,
    childKey := some key, childSummary := some summary,
    childStatus := some status, commentDate := commentDate,
    comment := some comment, type := some "Task", parent := none,
    indent := some 0 }

/-- The sub-task dict `process_sub_task` appends (lines 462-473). -/
def subTaskRecord (ek es key summary status : String) (commentDate : Option String)
    (comment : String) (parent : String) : Record :=
  { epicKey := some ek, epicSummary := some es,
    childKey := some key, childSummary := some summary,
    childStatus := some status, commentDate := commentDate,
    comment := some comment, type := some "Sub-Task", parent := some parent,
    indent := some 1 }

/-! ## Statement-level definitions for the theorems below. -/

/-- The invariant `main` maintains on `data`: a dict typed `"Task"` carries
`"Indent": 0` and a dict typed `"Sub-Task"` carries `"Indent": 1`
(`process_child_issue` line 442, `process_sub_task` line 472). -/
def wfIndents (data : List Record) : Prop :=
  ∀ r ∈ data, (r.type = some "Task" → r.indent = some 0) ∧
    (r.type = some "Sub-Task" → r.indent = some 1)

/-- Is this generated row a task row (indent cell `0`)? Under `wfIndents`
exactly the rows `taskRowCells` built. -/
def isTaskRow (row : List Cell) : Bool := row[6]? == some (Cell.nat 0)

/-- The status cell of a generated row, as an optional string. -/
def rowStatus (row : List Cell) : Option String :=
  match row[3]? with
  | some (Cell.str s) => some s
  | _ => none

/-- The comment-date cell of a generated row, as an optional string. -/
def rowDate (row : List Cell) : Option String :=
  match row[4]? with
  | some (Cell.str s) => some s
  | _ => none

/-- "May appear at or after" on comment dates: non-increasing, dateless
last. -/
def dateLE : Option String → Option String → Bool
  | some x, some y => !strLt x y
  | none, some _ => false
  | _, none => true

/-- The claim's order on task rows: status-bucket ascending; within a
bucket, comment timestamps non-increasing with dateless rows last. -/
def rowKeyLE (r1 r2 : List Cell) : Bool :=
  statusBucket (rowStatus r1) < statusBucket (rowStatus r2) ||
    (statusBucket (rowStatus r1) == statusBucket (rowStatus r2) &&
      dateLE (rowDate r1) (rowDate r2))

/-- The adjacency requirement of the grouping claim: a sub-task row may only
directly follow its own task's row or a sibling sub-task row emitted under
the same task. -/
def subOK (a b : ARow) : Prop :=
  ∀ c s2, b = ARow.sub c s2 → a = ARow.task c ∨ ∃ s1, a = ARow.sub c s1

/-- A timestamp string in the exact shape `YYYY-MM-DDTHH:MM:SS±HHMM`. -/
def isoPlain (y mo d h mi s : Nat) (neg : Bool) (oh om : Nat) : String :=
  String.mk (pad4 y ++ '-' :: pad2 mo ++ '-' :: pad2 d ++ 'T' :: pad2 h ++
    ':' :: pad2 mi ++ ':' :: pad2 s ++ (if neg then '-' else '+') :: (pad2 oh ++ pad2 om))

/-- A timestamp string in the exact shape `YYYY-MM-DDTHH:MM:SS.ffffff±HHMM`. -/
def isoFrac (y mo d h mi s f : Nat) (neg : Bool) (oh om : Nat) : String :=
  String.mk (pad4 y ++ '-' :: pad2 mo ++ '-' :: pad2 d ++ 'T' :: pad2 h ++
    ':' :: pad2 mi ++ ':' :: pad2 s ++ '.' :: pad6 f ++
    (if neg then '-' else '+') :: (pad2 oh ++ pad2 om))

/-- The display rendering `YYYY-MM-DD HH:MM:SS ±HHMM` the spec describes
(a zero offset always prints `+0000`, as `%z` does). -/
def displayPlain (y mo d h mi s : Nat) (neg : Bool) (oh om : Nat) : String :=
  String.mk (pad4 y ++ '-' :: pad2 mo ++ '-' :: pad2 d ++ ' ' :: pad2 h ++
    ':' :: pad2 mi ++ ':' :: pad2 s ++ ' ' ::
    (if neg ∧ 0 < oh * 60 + om then '-' else '+') :: (pad2 oh ++ pad2 om))

/-- Spec-side reading of a display timestamp `YYYY-MM-DD HH:MM:SS ±HHMM`
(the shape the report's `"Comment Date"` cells hold): its calendar and
offset fields, following the claim's words "comment timestamps". -/
def specReadDisplay (cs : List Char) :
    Option (Nat × Nat × Nat × Nat × Nat × Nat × Bool × Nat × Nat) := do
  let (y, r1) ← parseYear4 cs
  let r2 ← expectChar '-' r1
  let (mo, r3) ← parse2Any r2
  let r4 ← expectChar '-' r3
  let (d, r5) ← parse2Any r4
  let r6 ← expectChar ' ' r5
  let (h, r7) ← parse2Any r6
  let r8 ← expectChar ':' r7
  let (mi, r9) ← parse2Any r8
  let r10 ← expectChar ':' r9
  let (s, r11) ← parse2Any r10
  let r12 ← expectChar ' ' r11
  match r12 with
  | sign :: r13 =>
      if sign = '+' ∨ sign = '-' then
        let (oh, r14) ← parse2Any r13
        let (om, r15) ← parse2Any r14
        if r15 = [] then some (y, mo, d, h, mi, s, sign == '-', oh, om) else none
      else none
  | [] => none

/-- Days since 1970-01-01 of a proleptic-Gregorian civil date (Hinnant's
`days_from_civil`), used to read a timestamp as an absolute instant. -/
def daysFromCivil (y m d : Nat) : Int :=
  let yAdj : Nat := if m ≤ 2 then y - 1 else y
  let era : Nat := yAdj / 400
  let yoe : Nat := yAdj % 400
  let mp : Nat := if m ≤ 2 then m + 9 else m - 3
  let doy : Nat := (153 * mp + 2) / 5 + (d - 1)
  let doe : Nat := yoe * 365 + yoe / 4 - yoe / 100 + doy
  (era * 146097 + doe : Int) - 719468

/-- The instant a display timestamp denotes, as UTC seconds since the
epoch: its calendar seconds minus its printed UTC offset. This is the
chronological ("most recent") reading of the claim, against which the
code's string ordering is compared. -/
def specInstant (s : String) : Option Int :=
  match specReadDisplay s.data with
  | some (y, mo, d, h, mi, sec, neg, oh, om) =>
      some (daysFromCivil y mo d * 86400 + ((h * 3600 + mi * 60 + sec : Nat) : Int) -
        (if neg then -(((oh * 3600 + om * 60 : Nat) : Int))
         else ((oh * 3600 + om * 60 : Nat) : Int)))
  | none => none

/-- Is the instant of display timestamp `a` strictly earlier (older) than
that of `b`? -/
def specInstantLtB (a b : String) : Bool :=
  match specInstant a, specInstant b with
  | some x, some y => x < y
  | _, _ => false

/-- Decidable equality of `Except` results (not provided by the library). -/
instance exceptDecEq {e a : Type} [DecidableEq e] [DecidableEq a] :
    DecidableEq (Except e a)
  | .ok x, .ok y =>
      if h : x = y then isTrue (by rw [h])
      else isFalse (by intro hc; cases hc; exact h rfl)
  | .ok _, .error _ => isFalse (by intro h; cases h)
  | .error _, .ok _ => isFalse (by intro h; cases h)
  | .error x, .error y =>
      if h : x = y then isTrue (by rw [h])
      else isFalse (by intro hc; cases hc; exact h rfl)

/-! ## Theorems.  First, generic facts about the stable sort. -/

theorem mem_insertAfterEq {lt : α → α → Bool} {a x : α} :
    ∀ {l : List α}, x ∈ insertAfterEq lt a l ↔ x = a ∨ x ∈ l := by
  intro l
  induction l with
  | nil => simp [insertAfterEq]
  | cons b l ih =>
      by_cases h : lt a b = true
      · simp [insertAfterEq, h]
      · simp only [insertAfterEq, h, if_false, Bool.not_eq_true] at *
        simp [List.mem_cons, ih]
        tauto

theorem pairwise_insertAfterEq {lt : α → α → Bool}
    (asym : ∀ x y, lt x y = true → lt y x = false)
    (negtrans : ∀ x y z, lt x y = false → lt y z = false → lt x z = false)
    {a : α} : ∀ {l : List α}, l.Pairwise (fun x y => lt y x = false) →
    (insertAfterEq lt a l).Pairwise (fun x y => lt y x = false) := by
  intro l
  induction l with
  | nil => simp [insertAfterEq]
  | cons b l ih =>
      intro hp
      rcases List.pairwise_cons.mp hp with ⟨hb, hl⟩
      by_cases h : lt a b = true
      · rw [insertAfterEq, if_pos h]
        refine List.pairwise_cons.mpr ⟨?_, hp⟩
        intro y hy
        rcases List.mem_cons.mp hy with rfl | hy
        · exact asym _ _ h
        · exact negtrans y b a (hb y hy) (asym _ _ h)
      · rw [insertAfterEq, if_neg h]
        refine List.pairwise_cons.mpr ⟨?_, ih hl⟩
        intro y hy
        rcases mem_insertAfterEq.mp hy with rfl | hy
        · exact Bool.not_eq_true _ ▸ h
        · exact hb y hy

theorem pairwise_sortStable_aux {lt : α → α → Bool}
    (asym : ∀ x y, lt x y = true → lt y x = false)
    (negtrans : ∀ x y z, lt x y = false → lt y z = false → lt x z = false) :
    ∀ (l acc : List α), acc.Pairwise (fun x y => lt y x = false) →
      (l.foldl (fun acc a => insertAfterEq lt a acc) acc).Pairwise
        (fun x y => lt y x = false) := by
  intro l
  induction l with
  | nil => intro acc h; exact h
  | cons a l ih =>
      intro acc h
      exact ih _ (pairwise_insertAfterEq asym negtrans h)

/-- A stable sort by a strict weak order yields a list whose every later
element does not sort strictly before an earlier one. -/
theorem pairwise_sortStable {lt : α → α → Bool}
    (asym : ∀ x y, lt x y = true → lt y x = false)
    (negtrans : ∀ x y z, lt x y = false → lt y z = false → lt x z = false)
    (l : List α) :
    (sortStable lt l).Pairwise (fun x y => lt y x = false) :=
  pairwise_sortStable_aux asym negtrans l [] (List.Pairwise.nil)

theorem mem_sortStable_aux {lt : α → α → Bool} {x : α} :
    ∀ (l acc : List α),
      (x ∈ l.foldl (fun acc a => insertAfterEq lt a acc) acc ↔ x ∈ acc ∨ x ∈ l) := by
  intro l
  induction l with
  | nil => simp
  | cons a l ih =>
      intro acc
      simp only [List.foldl_cons, ih, mem_insertAfterEq, List.mem_cons]
      tauto

theorem mem_sortStable {lt : α → α → Bool} {x : α} {l : List α} :
    x ∈ sortStable lt l ↔ x ∈ l := by
  simpa [sortStable] using @mem_sortStable_aux _ lt x l []

/-! ## String comparison facts. -/

theorem charListLt_iff : ∀ as bs : List Char, charListLt as bs = true ↔ as < bs := by
  intro as
  induction as with
  | nil =>
      intro bs
      cases bs with
      | nil =>
          simp only [charListLt, Bool.false_eq_true, false_iff]
          intro h
          cases h
      | cons b bs =>
          simp only [charListLt, true_iff]
          exact List.Lex.nil
  | cons a as ih =>
      intro bs
      cases bs with
      | nil =>
          simp only [charListLt, Bool.false_eq_true, false_iff]
          intro h
          cases h
      | cons b bs =>
          by_cases hab : a < b
          · simp only [charListLt, if_pos hab, true_iff]
            exact List.Lex.rel hab
          · by_cases hba : b < a
            · simp only [charListLt, if_neg hab, if_pos hba, Bool.false_eq_true, false_iff]
              intro h
              cases h with
              | rel h => exact hab h
              | cons h => exact lt_irrefl a hba
            · have heq : a = b := le_antisymm (le_of_not_lt hba) (le_of_not_lt hab)
              subst heq
              simp only [charListLt, if_neg hab, if_neg hba]
              rw [ih bs]
              constructor
              · intro h
                exact List.Lex.cons h
              · intro h
                cases h with
                | rel h => exact absurd h hab
                | cons h => exact h

theorem strLt_iff (a b : String) : strLt a b = true ↔ a < b :=
  (charListLt_iff a.data b.data).trans String.lt_iff_toList_lt.symm

theorem strLt_false_iff (a b : String) : strLt a b = false ↔ ¬ a < b := by
  rw [← strLt_iff]
  cases h : strLt a b <;> simp

theorem strLt_asymm {a b : String} (h : strLt a b = true) : strLt b a = false := by
  rw [strLt_false_iff]
  exact lt_asymm ((strLt_iff a b).mp h)

theorem strLt_negtrans {a b c : String} (h1 : strLt a b = false)
    (h2 : strLt b c = false) : strLt a c = false := by
  rw [strLt_false_iff] at *
  intro hac
  exact h1 (lt_of_lt_of_le hac (le_of_not_lt h2))

theorem strLt_connex {a b : String} (h1 : strLt a b = false)
    (h2 : strLt b a = false) : a = b := by
  rw [strLt_false_iff] at *
  exact le_antisymm (le_of_not_lt h2) (le_of_not_lt h1)

theorem strLt_irrefl (a : String) : strLt a a = false := by
  rw [strLt_false_iff]
  exact lt_irrefl a

/-! ## The two sort comparators are strict weak orders. -/

theorem dateLt_asym : ∀ x y, dateLt x y = true → dateLt y x = false := by
  intro x y h
  cases x with
  | none => simp [dateLt] at h
  | some a =>
      cases y with
      | none => simp [dateLt]
      | some b =>
          simp only [dateLt] at *
          exact strLt_asymm h

theorem dateLt_negtrans : ∀ x y z, dateLt x y = false → dateLt y z = false →
    dateLt x z = false := by
  intro x y z h1 h2
  cases x with
  | none => rfl
  | some a =>
      cases y with
      | none => simp [dateLt] at h1
      | some b =>
          cases z with
          | none => simp [dateLt] at h2
          | some c =>
              simp only [dateLt] at *
              exact strLt_negtrans h2 h1

theorem parentLt_asym : ∀ x y, parentLt x y = true → parentLt y x = false := by
  intro x y h
  cases x with
  | none => simp [parentLt] at h
  | some a =>
      cases y with
      | none => simp [parentLt]
      | some b =>
          simp only [parentLt] at *
          exact strLt_asymm h

theorem parentLt_negtrans : ∀ x y z, parentLt x y = false → parentLt y z = false →
    parentLt x z = false := by
  intro x y z h1 h2
  cases x with
  | none => rfl
  | some a =>
      cases y with
      | none => simp [parentLt] at h1
      | some b =>
          cases z with
          | none => simp [parentLt] at h2
          | some c =>
              simp only [parentLt] at *
              exact strLt_negtrans h1 h2

theorem dateKeyEq_of_not_lt : ∀ x y, dateLt x y = false → dateLt y x = false →
    dateKeyEq x y = true := by
  intro x y h1 h2
  cases x with
  | none =>
      cases y with
      | none => rfl
      | some b => simp [dateLt] at h2
  | some a =>
      cases y with
      | none => simp [dateLt] at h1
      | some b =>
          simp only [dateLt] at *
          simp only [dateKeyEq, beq_iff_eq]
          exact strLt_connex h2 h1

theorem dateKeyEq_symm : ∀ x y, dateKeyEq x y = true → dateKeyEq y x = true := by
  intro x y h
  cases x <;> cases y <;> simp_all [dateKeyEq, beq_iff_eq]

theorem dateKeyEq_trans : ∀ x y z, dateKeyEq x y = true → dateKeyEq y z = true →
    dateKeyEq x z = true := by
  intro x y z h1 h2
  cases x <;> cases y <;> cases z <;> simp_all [dateKeyEq, beq_iff_eq]

theorem dateLt_congr_right : ∀ w x y, dateKeyEq x y = true → dateLt w x = dateLt w y := by
  intro w x y h
  cases x <;> cases y <;> simp_all [dateKeyEq, beq_iff_eq]

theorem dateKeyEq_not_lt : ∀ x y, dateKeyEq x y = true → dateLt x y = false := by
  intro x y h
  cases x <;> cases y <;> simp_all [dateKeyEq, dateLt, beq_iff_eq]
  exact strLt_irrefl _

theorem ltTask_false_iff (a b : Record) : ltTask a b = false ↔
    statusBucket b.childStatus ≤ statusBucket a.childStatus ∧
    (statusBucket a.childStatus = statusBucket b.childStatus →
      dateLt a.commentDate b.commentDate = false) := by
  simp only [ltTask, Bool.or_eq_false_iff, Bool.and_eq_false_iff, decide_eq_false_iff_not,
    Nat.not_lt, beq_eq_false_iff_ne, ne_eq]
  constructor
  · rintro ⟨h1, h2 | h2⟩
    · exact ⟨h1, fun he => absurd he h2⟩
    · exact ⟨h1, fun _ => h2⟩
  · rintro ⟨h1, h2⟩
    refine ⟨h1, ?_⟩
    by_cases he : statusBucket a.childStatus = statusBucket b.childStatus
    · exact Or.inr (h2 he)
    · exact Or.inl he

theorem ltTask_asym : ∀ x y, ltTask x y = true → ltTask y x = false := by
  intro x y h
  simp only [ltTask, Bool.or_eq_true, Bool.and_eq_true, decide_eq_true_eq, beq_iff_eq] at h
  rw [ltTask_false_iff]
  rcases h with h | ⟨he, hd⟩
  · exact ⟨Nat.le_of_lt h, fun he2 => absurd h (by omega)⟩
  · exact ⟨Nat.le_of_eq he, fun _ => dateLt_asym _ _ hd⟩

theorem ltTask_negtrans : ∀ x y z, ltTask x y = false → ltTask y z = false →
    ltTask x z = false := by
  intro x y z h1 h2
  rw [ltTask_false_iff] at *
  obtain ⟨b1, d1⟩ := h1
  obtain ⟨b2, d2⟩ := h2
  refine ⟨le_trans b2 b1, fun he => ?_⟩
  have e1 : statusBucket x.childStatus = statusBucket y.childStatus := by omega
  have e2 : statusBucket y.childStatus = statusBucket z.childStatus := by omega
  exact dateLt_negtrans _ _ _ (d1 e1) (d2 e2)

theorem ltSub_false_iff (a b : Record) : ltSub a b = false ↔
    statusBucket b.childStatus ≤ statusBucket a.childStatus ∧
    (statusBucket a.childStatus = statusBucket b.childStatus →
      dateLt a.commentDate b.commentDate = false ∧
      (dateKeyEq a.commentDate b.commentDate = true →
        parentLt a.parent b.parent = false)) := by
  simp only [ltSub, Bool.or_eq_false_iff, Bool.and_eq_false_iff, decide_eq_false_iff_not,
    Nat.not_lt, beq_eq_false_iff_ne, ne_eq]
  constructor
  · rintro ⟨h1, h2 | ⟨h2, h3 | h3⟩⟩
    · exact ⟨h1, fun he => absurd he h2⟩
    · exact ⟨h1, fun _ => ⟨h2, fun he3 => absurd he3 (by simp [h3])⟩⟩
    · exact ⟨h1, fun _ => ⟨h2, fun _ => h3⟩⟩
  · rintro ⟨h1, h2⟩
    refine ⟨h1, ?_⟩
    by_cases he : statusBucket a.childStatus = statusBucket b.childStatus
    · obtain ⟨hd, hp⟩ := h2 he
      refine Or.inr ⟨hd, ?_⟩
      by_cases hk : dateKeyEq a.commentDate b.commentDate = true
      · exact Or.inr (hp hk)
      · exact Or.inl (by simpa using hk)
    · exact Or.inl he

theorem ltSub_asym : ∀ x y, ltSub x y = true → ltSub y x = false := by
  intro x y h
  simp only [ltSub, Bool.or_eq_true, Bool.and_eq_true, decide_eq_true_eq, beq_iff_eq] at h
  rw [ltSub_false_iff]
  rcases h with h | ⟨he, hd | ⟨hk, hp⟩⟩
  · exact ⟨Nat.le_of_lt h, fun he2 => absurd h (by omega)⟩
  · refine ⟨Nat.le_of_eq he, fun _ => ⟨dateLt_asym _ _ hd, fun hk2 => ?_⟩⟩
    have := dateKeyEq_not_lt _ _ (dateKeyEq_symm _ _ hk2)
    rw [this] at hd
    exact absurd hd (by simp)
  · refine ⟨Nat.le_of_eq he, fun _ => ⟨dateKeyEq_not_lt _ _ (dateKeyEq_symm _ _ hk),
      fun _ => parentLt_asym _ _ hp⟩⟩

theorem ltSub_negtrans : ∀ x y z, ltSub x y = false → ltSub y z = false →
    ltSub x z = false := by
  intro x y z h1 h2
  rw [ltSub_false_iff] at *
  obtain ⟨b1, r1⟩ := h1
  obtain ⟨b2, r2⟩ := h2
  refine ⟨le_trans b2 b1, fun he => ?_⟩
  have e1 : statusBucket x.childStatus = statusBucket y.childStatus := by omega
  have e2 : statusBucket y.childStatus = statusBucket z.childStatus := by omega
  obtain ⟨d1, p1⟩ := r1 e1
  obtain ⟨d2, p2⟩ := r2 e2
  refine ⟨dateLt_negtrans _ _ _ d1 d2, fun e13 => ?_⟩
  have hyx : dateLt y.commentDate x.commentDate = false := by
    by_contra hc
    have hc' : dateLt y.commentDate x.commentDate = true := by
      simpa using hc
    have : dateLt y.commentDate z.commentDate = true := by
      rw [← dateLt_congr_right y.commentDate x.commentDate z.commentDate e13]
      exact hc'
    rw [this] at d2
    exact absurd d2 (by simp)
  have e12 : dateKeyEq x.commentDate y.commentDate = true := dateKeyEq_of_not_lt _ _ d1 hyx
  have e23 : dateKeyEq y.commentDate z.commentDate = true :=
    dateKeyEq_trans _ _ _ (dateKeyEq_symm _ _ e12) e13
  exact parentLt_negtrans _ _ _ (p1 e12) (p2 e23)

/-! ## Task rows within one epic section. -/

theorem rowStatus_taskRowCells (data : List Record) (c : Record) :
    rowStatus (taskRowCells data c) = c.childStatus := by
  cases h : c.childStatus <;> simp [rowStatus, taskRowCells, cellS, h]

theorem rowDate_taskRowCells (data : List Record) (c : Record) :
    rowDate (taskRowCells data c) = c.commentDate := by
  cases h : c.commentDate <;> simp [rowDate, taskRowCells, cellS, h]

theorem rowKeyLE_of_ltTask_false (data : List Record) (a b : Record)
    (h : ltTask b a = false) :
    rowKeyLE (taskRowCells data a) (taskRowCells data b) = true := by
  rw [ltTask_false_iff] at h
  obtain ⟨hb, hd⟩ := h
  simp only [rowKeyLE, rowStatus_taskRowCells, rowDate_taskRowCells,
    Bool.or_eq_true, Bool.and_eq_true, decide_eq_true_eq, beq_iff_eq]
  rcases Nat.lt_or_ge (statusBucket a.childStatus) (statusBucket b.childStatus) with hlt | hge
  · exact Or.inl hlt
  · have he : statusBucket a.childStatus = statusBucket b.childStatus :=
      Nat.le_antisymm hb hge
    refine Or.inr ⟨he, ?_⟩
    have hdf := hd he.symm
    cases ha : a.commentDate with
    | none =>
        cases hb2 : b.commentDate with
        | none => rfl
        | some y => rw [ha, hb2] at hdf; simp [dateLt] at hdf
    | some x =>
        cases hb2 : b.commentDate with
        | none => rfl
        | some y =>
            rw [ha, hb2] at hdf
            simp only [dateLt] at hdf
            simp only [dateLE, hdf, Bool.not_false]

theorem isTaskRow_headerRow (data : List Record) (k : String) :
    isTaskRow (headerRow data k) = false := by
  simp [isTaskRow, headerRow]

theorem isTaskRow_spacerRow : isTaskRow spacerRow = false := by
  simp [isTaskRow, spacerRow]

theorem isTaskRow_taskRowCells (data : List Record) (c : Record)
    (h : c.indent = some 0 ∨ hasColIndent data = false) :
    isTaskRow (taskRowCells data c) = true := by
  rcases h with h | h
  · by_cases hc : hasColIndent data = true <;>
      simp [isTaskRow, taskRowCells, indentCell, h, hc]
  · simp [isTaskRow, taskRowCells, indentCell, h]

theorem isTaskRow_subRowCells (data : List Record) (s2 : Record)
    (h : s2.indent = some 1 ∨ hasColIndent data = false) :
    isTaskRow (subRowCells data s2) = false := by
  rcases h with h | h
  · by_cases hc : hasColIndent data = true <;>
      simp [isTaskRow, subRowCells, indentCell, h, hc]
  · simp [isTaskRow, subRowCells, indentCell, h]

theorem mem_sortedChildren (data : List Record) (k : String) (c : Record)
    (h : c ∈ sortedChildren data k) : c ∈ data ∧ c.type = some "Task" := by
  have h2 := mem_sortStable.mp h
  have h3 := List.mem_filter.mp h2
  have h4 := List.mem_filter.mp h3.1
  refine ⟨h4.1, ?_⟩
  have := h3.2
  simpa [beq_iff_eq] using this

theorem mem_sortedSubs (data : List Record) (k : String) (s2 : Record)
    (h : s2 ∈ sortedSubs data k) : s2 ∈ data ∧ s2.type = some "Sub-Task" := by
  have h2 := mem_sortStable.mp h
  have h3 := List.mem_filter.mp h2
  have h4 := List.mem_filter.mp h3.1
  refine ⟨h4.1, ?_⟩
  have := h3.2
  simpa [beq_iff_eq] using this

theorem mem_subsOf (data : List Record) (k : String) (c s2 : Record)
    (h : s2 ∈ subsOf data k c) :
    s2 ∈ sortedSubs data k ∧ parentMatches s2 c = true :=
  ⟨(List.mem_filter.mp h).1, (List.mem_filter.mp h).2⟩

theorem filter_taskRows_flatMap (data : List Record) (k : String) :
    ∀ cs : List Record,
      (∀ c ∈ cs, isTaskRow (taskRowCells data c) = true) →
      (∀ c ∈ cs, ∀ s2 ∈ subsOf data k c, isTaskRow (subRowCells data s2) = false) →
      ((cs.flatMap fun c =>
          taskRowCells data c :: (subsOf data k c).map (subRowCells data)).filter
        isTaskRow) = cs.map (taskRowCells data) := by
  intro cs
  induction cs with
  | nil => intro _ _; rfl
  | cons c cs ih =>
      intro h1 h2
      rw [List.flatMap_cons, List.filter_append, List.filter_cons]
      rw [h1 c (List.mem_cons_self c cs)]
      have hsubs : ((subsOf data k c).map (subRowCells data)).filter isTaskRow = [] := by
        rw [List.filter_eq_nil_iff]
        intro row hrow
        obtain ⟨s2, hs2, rfl⟩ := List.mem_map.mp hrow
        simp [h2 c (List.mem_cons_self c cs) s2 hs2]
      rw [hsubs, ih (fun x hx => h1 x (List.mem_cons_of_mem c hx))
        (fun x hx => h2 x (List.mem_cons_of_mem c hx))]
      rfl

theorem section_filter_taskRows (data : List Record) (k : String)
    (hwf : wfIndents data) :
    (epicSection data k).filter isTaskRow =
      (sortedChildren data k).map (taskRowCells data) := by
  rw [epicSection, List.filter_append, List.filter_cons, isTaskRow_headerRow,
    List.filter_cons, isTaskRow_spacerRow]
  rw [filter_taskRows_flatMap data k _ ?_ ?_]
  · simp
  · intro c hc
    have ⟨hmem, hty⟩ := mem_sortedChildren data k c hc
    exact isTaskRow_taskRowCells data c (Or.inl ((hwf c hmem).1 hty))
  · intro c _ s2 hs2
    have ⟨hmem2, _⟩ := mem_subsOf data k c s2 hs2
    have ⟨hmem, hty⟩ := mem_sortedSubs data k s2 hmem2
    exact isTaskRow_subRowCells data s2 (Or.inl ((hwf s2 hmem).2 hty))

/-- C4 (counterexample): within one status bucket the code orders task
rows by the formatted `"Comment Date"` *string* descending
(`sort_values(..., ascending=[True, False])` on the display strings, lines
256-261), not by the instant the string denotes, so "most recent first" is
false under mixed UTC offsets. Epic `NOOPT-1` has two `New` tasks: T1's
comment is at `2024-10-27 02:30:00 +0200` (= 00:30 UTC) and T2's at
`2024-10-27 02:10:00 +0100` (= 01:10 UTC). T2's comment is the more recent
instant — the input even lists T2 first — yet the report emits T1's row
first, because `"… 02:30:00 +0200"` is the lexicographically larger
string; the chronologically older comment comes first. (A sub-task record
is included so the DataFrame owns the `"Parent"` column the sub-task sort
touches.) -/
theorem claim_C4_counterexample :
    generateExcelReport
      [taskRecord "NOOPT-1" "Epic" "NOOPT-3" "T2" "New"
         (some "2024-10-27 02:10:00 +0100") "c2",
       taskRecord "NOOPT-1" "Epic" "NOOPT-2" "T1" "New"
         (some "2024-10-27 02:30:00 +0200") "c1",
       subTaskRecord "NOOPT-1" "Epic" "NOOPT-4" "S1" "New" none " " "NOOPT-3"] =
      .ok
      [[Cell.str "Epic (NOOPT-1)", Cell.str "", Cell.str "", Cell.str "",
        Cell.str "", Cell.str ""],
       [Cell.str "", Cell.str "NOOPT-2", Cell.str "T1", Cell.str "New",
        Cell.str "2024-10-27 02:30:00 +0200", Cell.str "c1", Cell.nat 0],
       [Cell.str "", Cell.str "NOOPT-3", Cell.str "T2", Cell.str "New",
        Cell.str "2024-10-27 02:10:00 +0100", Cell.str "c2", Cell.nat 0],
       [Cell.str "", Cell.str "NOOPT-4", Cell.str "S1", Cell.str "New",
        Cell.nan, Cell.str " ", Cell.nat 1],
       [Cell.str "ยง", Cell.str "", Cell.str "", Cell.str "", Cell.str "",
        Cell.str "", Cell.str ""]] ∧
    specInstantLtB "2024-10-27 02:30:00 +0200" "2024-10-27 02:10:00 +0100" = true :=
  ⟨by decide, by decide⟩

/-- C4 (amended): within each epic section, the task rows appear grouped by
status bucket in the precedence order In Progress (1), Waiting (2), For
approval (3), New (4), then Done together with any unrecognized status
(both bucket 5), and within a bucket the formatted `"Comment Date"` string
cells are lexicographically non-increasing, rows without a date cell last
— string order, which coincides with "most recent first" only when all
timestamps carry the same UTC offset (see the counterexample).
(`wfIndents` is what `main` guarantees: task dicts carry indent 0 and
sub-task dicts indent 1, which is what makes a task row recognizable by
its indent cell.) -/
theorem claim_C4_amended (data : List Record) (k : String) (hwf : wfIndents data) :
    ((epicSection data k).filter isTaskRow).Pairwise
      (fun r1 r2 => rowKeyLE r1 r2 = true) := by
  rw [section_filter_taskRows data k hwf]
  have hp : (sortedChildren data k).Pairwise (fun x y => ltTask y x = false) :=
    pairwise_sortStable ltTask_asym ltTask_negtrans _
  exact hp.map _ (fun a b h => rowKeyLE_of_ltTask_false data a b h)

theorem claim_C4_witness :
    wfIndents
      [taskRecord "NOOPT-1" "Epic" "NOOPT-2" "T1" "Done" none " ",
       taskRecord "NOOPT-1" "Epic" "NOOPT-3" "T2" "In Progress"
         (some "2024-01-02 03:04:05 +0000") "c",
       subTaskRecord "NOOPT-1" "Epic" "NOOPT-4" "S1" "New" none " " "NOOPT-3"] ∧
    ((epicSection
      [taskRecord "NOOPT-1" "Epic" "NOOPT-2" "T1" "Done" none " ",
       taskRecord "NOOPT-1" "Epic" "NOOPT-3" "T2" "In Progress"
         (some "2024-01-02 03:04:05 +0000") "c",
       subTaskRecord "NOOPT-1" "Epic" "NOOPT-4" "S1" "New" none " " "NOOPT-3"]
      "NOOPT-1").filter isTaskRow).Pairwise (fun r1 r2 => rowKeyLE r1 r2 = true) :=
  ⟨by unfold wfIndents; decide, claim_C4_amended _ "NOOPT-1" (by unfold wfIndents; decide)⟩

/-! ## Epic-section ordering: `groupby` iterates keys in sorted order. -/

theorem mem_insertKey {k x : String} : ∀ {l : List String},
    x ∈ insertKey k l ↔ x = k ∨ x ∈ l := by
  intro l
  induction l with
  | nil => simp [insertKey]
  | cons b l ih =>
      by_cases h1 : strLt k b = true
      · simp [insertKey, h1]
      · by_cases h2 : k = b
        · subst h2
          simp only [insertKey, Bool.not_eq_true] at h1
          simp [insertKey, h1]
        · simp only [insertKey, Bool.not_eq_true] at h1
          simp only [insertKey, h1, Bool.false_eq_true, if_false, if_neg h2,
            List.mem_cons, ih]
          tauto

theorem chain_insertKey {k : String} : ∀ {l : List String},
    l.Chain' (· < ·) → (insertKey k l).Chain' (· < ·) := by
  intro l
  induction l with
  | nil => simp [insertKey]
  | cons b l ih =>
      intro hc
      by_cases h1 : strLt k b = true
      · rw [insertKey, if_pos h1]
        exact hc.cons ((strLt_iff k b).mp h1)
      · rw [Bool.not_eq_true] at h1
        by_cases h2 : k = b
        · rw [insertKey, h1, if_neg (by simp), if_pos h2]
          exact hc
        · rw [insertKey, h1, if_neg (by simp), if_neg h2]
          have hbk : b < k := by
            rcases lt_trichotomy k b with h | h | h
            · exact absurd ((strLt_iff k b).mpr h) (by simp [h1])
            · exact absurd h h2
            · exact h
          cases l with
          | nil =>
              exact List.chain'_cons.mpr ⟨hbk, List.chain'_singleton k⟩
          | cons c l2 =>
              obtain ⟨hb, hl⟩ := List.chain'_cons.mp hc
              have hrec := ih hl
              by_cases h3 : strLt k c = true
              · simp only [insertKey, if_pos h3] at hrec ⊢
                exact List.chain'_cons.mpr ⟨hbk, hrec⟩
              · rw [Bool.not_eq_true] at h3
                by_cases h4 : k = c
                · simp only [insertKey, h3, Bool.false_eq_true, if_false, if_pos h4] at hrec ⊢
                  exact List.chain'_cons.mpr ⟨hb, hrec⟩
                · simp only [insertKey, h3, Bool.false_eq_true, if_false, if_neg h4] at hrec ⊢
                  exact List.chain'_cons.mpr ⟨hb, hrec⟩

theorem chain_groupbyKeys_aux : ∀ (l : List String) (acc : List String),
    acc.Chain' (· < ·) →
    (l.foldl (fun acc k => insertKey k acc) acc).Chain' (· < ·) := by
  intro l
  induction l with
  | nil => intro acc h; exact h
  | cons k l ih => intro acc h; exact ih _ (chain_insertKey h)

/-- The order in which `groupby("Epic Key")` presents the epic groups is
strictly ascending in the key, whatever order the records arrived in. -/
theorem chain_groupbyKeys (data : List Record) :
    (groupbyKeys data).Chain' (· < ·) :=
  chain_groupbyKeys_aux _ [] List.chain'_nil

theorem mem_groupbyKeys_aux {x : String} : ∀ (l acc : List String),
    (x ∈ l.foldl (fun acc k => insertKey k acc) acc ↔ x ∈ acc ∨ x ∈ l) := by
  intro l
  induction l with
  | nil => simp
  | cons k l ih =>
      intro acc
      simp only [List.foldl_cons, ih, mem_insertKey, List.mem_cons]
      tauto

/-- A key heads an epic section exactly when some record carries it. -/
theorem mem_groupbyKeys (data : List Record) (k : String) :
    k ∈ groupbyKeys data ↔ some k ∈ data.map (fun r => r.epicKey) := by
  rw [groupbyKeys, mem_groupbyKeys_aux]
  simp [List.mem_filterMap]

/-- Whenever `generate_excel_report` succeeds, `excel_data` is the
concatenation of the per-key sections in `groupby` order. -/
theorem generate_ok_rows (data : List Record) (rows : List (List Cell))
    (h : generateExcelReport data = .ok rows) :
    rows = (groupbyKeys data).flatMap (epicSection data) := by
  simp only [generateExcelReport] at h
  split at h
  · simp at h
  · split at h
    · next hkeys =>
        cases h
        rw [List.isEmpty_iff.mp hkeys]
        rfl
    · split at h
      · simp at h
      · split at h
        · simp at h
        · split at h
          · simp at h
          · cases h
            rfl

/-- C3 counterexample: the tracker hands over epic `NOOPT-2` (two records)
before epic `NOOPT-1`, yet the report puts the `NOOPT-1` section first —
`groupby("Epic Key")` iterates groups in ascending key order, not input
order. -/
theorem claim_C3_counterexample :
    (List.map (fun r => r.epicKey)
      [taskRecord "NOOPT-2" "Second Epic" "NOOPT-20" "T" "New" none " ",
       subTaskRecord "NOOPT-2" "Second Epic" "NOOPT-21" "S" "New" none " " "NOOPT-20",
       taskRecord "NOOPT-1" "First Epic" "NOOPT-10" "T" "New" none " "]) =
      [some "NOOPT-2", some "NOOPT-2", some "NOOPT-1"] ∧
    generateExcelReport
      [taskRecord "NOOPT-2" "Second Epic" "NOOPT-20" "T" "New" none " ",
       subTaskRecord "NOOPT-2" "Second Epic" "NOOPT-21" "S" "New" none " " "NOOPT-20",
       taskRecord "NOOPT-1" "First Epic" "NOOPT-10" "T" "New" none " "] =
      .ok
      [[Cell.str "First Epic (NOOPT-1)", Cell.str "", Cell.str "", Cell.str "",
        Cell.str "", Cell.str ""],
       [Cell.str "", Cell.str "NOOPT-10", Cell.str "T", Cell.str "New", Cell.nan,
        Cell.str " ", Cell.nat 0],
       [Cell.str "ยง", Cell.str "", Cell.str "", Cell.str "", Cell.str "",
        Cell.str "", Cell.str ""],
       [Cell.str "Second Epic (NOOPT-2)", Cell.str "", Cell.str "", Cell.str "",
        Cell.str "", Cell.str ""],
       [Cell.str "", Cell.str "NOOPT-20", Cell.str "T", Cell.str "New", Cell.nan,
        Cell.str " ", Cell.nat 0],
       [Cell.str "", Cell.str "NOOPT-21", Cell.str "S", Cell.str "New", Cell.nan,
        Cell.str " ", Cell.nat 1],
       [Cell.str "ยง", Cell.str "", Cell.str "", Cell.str "", Cell.str "",
        Cell.str "", Cell.str ""]] :=
  ⟨rfl, by decide⟩

/-- C3 (amended): epic sections appear in strictly ascending epic-key order
— one section per distinct key occurring in the data — regardless of input
order; this coincides with input order exactly when the epics arrive
already sorted by key (which the epic-fetch JQL `ORDER BY key ASC`
provides). -/
theorem claim_C3_amended (data : List Record) (rows : List (List Cell))
    (h : generateExcelReport data = .ok rows) :
    rows = (groupbyKeys data).flatMap (epicSection data) ∧
    (groupbyKeys data).Chain' (· < ·) ∧
    (∀ k, k ∈ groupbyKeys data ↔ some k ∈ data.map (fun r => r.epicKey)) :=
  ⟨generate_ok_rows data rows h, chain_groupbyKeys data, fun k => mem_groupbyKeys data k⟩

theorem claim_C3_witness :
    generateExcelReport
      [taskRecord "NOOPT-1" "First Epic" "NOOPT-10" "T" "New" none " ",
       subTaskRecord "NOOPT-1" "First Epic" "NOOPT-11" "S" "New" none " " "NOOPT-10"] =
      .ok ((groupbyKeys
        [taskRecord "NOOPT-1" "First Epic" "NOOPT-10" "T" "New" none " ",
         subTaskRecord "NOOPT-1" "First Epic" "NOOPT-11" "S" "New" none " " "NOOPT-10"]).flatMap
        (epicSection
          [taskRecord "NOOPT-1" "First Epic" "NOOPT-10" "T" "New" none " ",
           subTaskRecord "NOOPT-1" "First Epic" "NOOPT-11" "S" "New" none " " "NOOPT-10"])) ∧
    (groupbyKeys
      [taskRecord "NOOPT-1" "First Epic" "NOOPT-10" "T" "New" none " ",
       subTaskRecord "NOOPT-1" "First Epic" "NOOPT-11" "S" "New" none " " "NOOPT-10"]).Chain'
      (· < ·) := by
  have h : generateExcelReport
      [taskRecord "NOOPT-1" "First Epic" "NOOPT-10" "T" "New" none " ",
       subTaskRecord "NOOPT-1" "First Epic" "NOOPT-11" "S" "New" none " " "NOOPT-10"] =
      Except.ok ((groupbyKeys
        [taskRecord "NOOPT-1" "First Epic" "NOOPT-10" "T" "New" none " ",
         subTaskRecord "NOOPT-1" "First Epic" "NOOPT-11" "S" "New" none " " "NOOPT-10"]).flatMap
        (epicSection
          [taskRecord "NOOPT-1" "First Epic" "NOOPT-10" "T" "New" none " ",
           subTaskRecord "NOOPT-1" "First Epic" "NOOPT-11" "S" "New" none " " "NOOPT-10"])) := by
    decide
  exact ⟨h, (claim_C3_amended _ _ h).2.1⟩

/-- C1: the "No tasks created" placeholder never reaches the report. The
placeholder dict (lines 548-555) carries no `"Type"` key, so (a) when an
epic with zero tasks is the only epic fetched, the DataFrame has no
`"Type"` column at all and `group[group["Type"] == "Task"]` (line 252)
raises `KeyError: 'Type'` — no report is produced; and (b) when other
epics contribute real tasks, the placeholder row's `"Type"` is NaN, it
matches neither the Task nor the Sub-Task filter, and the empty epic's
section is exactly the header row and the spacer row — two rows, with no
placeholder task row between them. -/
theorem claim_C1_code_behavior :
    generateExcelReport [placeholderRecord "NOOPT-1" "Empty Epic"] = .error "Type" ∧
    epicSection
      [placeholderRecord "NOOPT-1" "Empty Epic",
       taskRecord "NOOPT-2" "Real Epic" "NOOPT-3" "Task A" "New"
         (some "2024-01-02 03:04:05 +0000") "c1",
       subTaskRecord "NOOPT-2" "Real Epic" "NOOPT-4" "Sub A" "Done" none " " "NOOPT-3"]
      "NOOPT-1" =
      [[Cell.str "Empty Epic (NOOPT-1)", Cell.str "", Cell.str "", Cell.str "",
        Cell.str "", Cell.str ""],
       spacerRow] ∧
    generateExcelReport
      [placeholderRecord "NOOPT-1" "Empty Epic",
       taskRecord "NOOPT-2" "Real Epic" "NOOPT-3" "Task A" "New"
         (some "2024-01-02 03:04:05 +0000") "c1",
       subTaskRecord "NOOPT-2" "Real Epic" "NOOPT-4" "Sub A" "Done" none " " "NOOPT-3"] =
      .ok
      [[Cell.str "Empty Epic (NOOPT-1)", Cell.str "", Cell.str "", Cell.str "",
        Cell.str "", Cell.str ""],
       [Cell.str "ยง", Cell.str "", Cell.str "", Cell.str "", Cell.str "",
        Cell.str "", Cell.str ""],
       [Cell.str "Real Epic (NOOPT-2)", Cell.str "", Cell.str "", Cell.str "",
        Cell.str "", Cell.str ""],
       [Cell.str "", Cell.str "NOOPT-3", Cell.str "Task A", Cell.str "New",
        Cell.str "2024-01-02 03:04:05 +0000", Cell.str "c1", Cell.nat 0],
       [Cell.str "", Cell.str "NOOPT-4", Cell.str "Sub A", Cell.str "Done",
        Cell.nan, Cell.str " ", Cell.nat 1],
       [Cell.str "ยง", Cell.str "", Cell.str "", Cell.str "", Cell.str "",
        Cell.str "", Cell.str ""]] :=
  ⟨by decide, by decide, by decide⟩

/-! ## The spacer row. -/

theorem headerRow_ne_spacerRow (data : List Record) (k : String) :
    headerRow data k ≠ spacerRow := by
  intro h
  have := congrArg List.length h
  simp [headerRow, spacerRow] at this

theorem taskRowCells_ne_spacerRow (data : List Record) (c : Record) :
    taskRowCells data c ≠ spacerRow := by
  intro h
  simp [taskRowCells, spacerRow] at h

theorem subRowCells_ne_spacerRow (data : List Record) (s2 : Record) :
    subRowCells data s2 ≠ spacerRow := by
  intro h
  simp [subRowCells, spacerRow] at h

theorem spacer_notMem_body (data : List Record) (k : String) :
    spacerRow ∉ ((sortedChildren data k).flatMap fun c =>
      taskRowCells data c :: (subsOf data k c).map (subRowCells data)) := by
  intro hmem
  obtain ⟨c, _, hrow⟩ := List.mem_flatMap.mp hmem
  rcases List.mem_cons.mp hrow with h | h
  · exact taskRowCells_ne_spacerRow data c h.symm
  · obtain ⟨s2, _, hs⟩ := List.mem_map.mp h
    exact subRowCells_ne_spacerRow data s2 hs

/-- C7: each epic section ends with exactly one spacer row — the `"ยง"`
sentinel in column A and every other column empty; the formatter
recognizes it (it is no header and no data row), assigns it indent level
3, blanks the sentinel cell, and applies no Done fill. Its six empty data
cells and sentinel first cell make it distinct from every header, task and
sub-task row, which is why it occurs exactly once per section, at the
end. -/
theorem claim_C7 (data : List Record) (k : String) :
    (epicSection data k).getLast? = some spacerRow ∧
    (epicSection data k).count spacerRow = 1 ∧
    spacerRow = [Cell.str "ยง", Cell.str "", Cell.str "", Cell.str "",
      Cell.str "", Cell.str "", Cell.str ""] ∧
    (rowFmt spacerRow).isHeader = false ∧
    (rowFmt spacerRow).indentLevel = 3 ∧
    (rowFmt spacerRow).newA = some "" ∧
    (rowFmt spacerRow).doneCols = [] := by
  refine ⟨?_, ?_, by decide, by decide, by decide, by decide, by decide⟩
  · rw [epicSection, List.getLast?_concat]
  · rw [epicSection, List.count_append, List.count_cons,
      List.count_singleton]
    have h2 : List.count spacerRow ((sortedChildren data k).flatMap fun c =>
        taskRowCells data c :: List.map (subRowCells data) (subsOf data k c)) = 0 :=
      List.count_eq_zero.mpr (spacer_notMem_body data k)
    have h3 : (headerRow data k == spacerRow) = false :=
      beq_eq_false_iff_ne.mpr (headerRow_ne_spacerRow data k)
    rw [h2, h3]
    simp

/-! ## The grouping of sub-task rows under their task row. -/

theorem eraseA_blocks (data : List Record) (k : String) : ∀ cs : List Record,
    ((cs.flatMap fun c =>
      ARow.task c :: (subsOf data k c).map (ARow.sub c)).map (eraseA data)) =
    cs.flatMap fun c =>
      taskRowCells data c :: (subsOf data k c).map (subRowCells data) := by
  intro cs
  induction cs with
  | nil => rfl
  | cons c cs ih =>
      rw [List.flatMap_cons, List.flatMap_cons, List.map_append, ih, List.map_cons,
        List.map_map]
      rfl

theorem eraseA_annotatedSection (data : List Record) (k : String) :
    (annotatedSection data k).map (eraseA data) = epicSection data k := by
  rw [annotatedSection, epicSection, List.map_append, List.map_cons,
    eraseA_blocks data k]
  rfl

theorem eraseA_annotatedReport (data : List Record) :
    (annotatedReport data).map (eraseA data) =
      (groupbyKeys data).flatMap (epicSection data) := by
  rw [annotatedReport]
  induction groupbyKeys data with
  | nil => rfl
  | cons k ks ih =>
      rw [List.flatMap_cons, List.flatMap_cons, List.map_append, ih,
        eraseA_annotatedSection data k]

theorem chain'_of_forall {R : α → α → Prop} (h : ∀ a b, R a b) :
    ∀ l : List α, l.Chain' R := by
  intro l
  induction l with
  | nil => exact List.chain'_nil
  | cons a l ih =>
      cases l with
      | nil => exact List.chain'_singleton a
      | cons b l2 => exact List.chain'_cons.mpr ⟨h a b, ih⟩

theorem subOK_of_not_sub (a b : ARow) (h : b.isSub = false) : subOK a b := by
  intro c s2 heq
  rw [heq] at h
  simp [ARow.isSub] at h

theorem subOK_task_sub (c : Record) (s2 : Record) :
    subOK (ARow.task c) (ARow.sub c s2) := by
  intro c' s2' heq
  injection heq with h1 h2
  subst h1
  exact Or.inl rfl

theorem subOK_sub_sub (c : Record) (s1 s2 : Record) :
    subOK (ARow.sub c s1) (ARow.sub c s2) := by
  intro c' s2' heq
  injection heq with h1 h2
  subst h1
  exact Or.inr ⟨s1, rfl⟩

theorem chain'_block (c : Record) (subs : List Record) :
    List.Chain' subOK (ARow.task c :: subs.map (ARow.sub c)) := by
  rw [List.chain'_cons']
  constructor
  · intro b hb
    cases subs with
    | nil => simp at hb
    | cons s rest =>
        simp only [List.map_cons, List.head?_cons, Option.mem_def,
          Option.some.injEq] at hb
        rw [← hb]
        exact subOK_task_sub c s
  · rw [List.chain'_map]
    exact chain'_of_forall (fun s1 s2 => subOK_sub_sub c s1 s2) subs

theorem blocks_head_not_sub (data : List Record) (k : String) (cs : List Record)
    (y : ARow)
    (h : ((cs.flatMap fun c =>
      ARow.task c :: (subsOf data k c).map (ARow.sub c)).head?) = some y) :
    y.isSub = false := by
  cases cs with
  | nil => simp at h
  | cons c cs =>
      simp only [List.flatMap_cons, List.cons_append, List.head?_cons,
        Option.some.injEq] at h
      rw [← h]
      rfl

theorem chain'_blocks (data : List Record) (k : String) : ∀ cs : List Record,
    List.Chain' subOK (cs.flatMap fun c =>
      ARow.task c :: (subsOf data k c).map (ARow.sub c)) := by
  intro cs
  induction cs with
  | nil => exact List.chain'_nil
  | cons c cs ih =>
      rw [List.flatMap_cons]
      rw [List.chain'_append]
      refine ⟨chain'_block c (subsOf data k c), ih, ?_⟩
      intro x _ y hy
      exact subOK_of_not_sub x y (blocks_head_not_sub data k cs y hy)

theorem section_head_not_sub (data : List Record) (k : String) (y : ARow)
    (h : (annotatedSection data k).head? = some y) : y.isSub = false := by
  simp only [annotatedSection, List.cons_append, List.head?_cons,
    Option.some.injEq] at h
  rw [← h]
  rfl

theorem chain'_annotatedSection (data : List Record) (k : String) :
    List.Chain' subOK (annotatedSection data k) := by
  rw [annotatedSection]
  rw [List.chain'_append]
  refine ⟨?_, List.chain'_singleton _, ?_⟩
  · rw [List.chain'_cons']
    refine ⟨?_, chain'_blocks data k _⟩
    intro y hy
    exact subOK_of_not_sub _ y (blocks_head_not_sub data k _ y hy)
  · intro x _ y hy
    simp only [List.head?_cons, Option.mem_def, Option.some.injEq] at hy
    rw [← hy]
    exact subOK_of_not_sub x ARow.spacer rfl

theorem report_head_not_sub (data : List Record) : ∀ ks : List String, ∀ y : ARow,
    ((ks.flatMap (annotatedSection data)).head? = some y) → y.isSub = false := by
  intro ks
  induction ks with
  | nil => intro y h; simp at h
  | cons k ks ih =>
      intro y h
      rw [List.flatMap_cons] at h
      simp only [annotatedSection, List.cons_append, List.head?_cons,
        Option.some.injEq] at h
      rw [← h]
      rfl

theorem chain'_annotatedReport (data : List Record) :
    List.Chain' subOK (annotatedReport data) := by
  rw [annotatedReport]
  induction groupbyKeys data with
  | nil => exact List.chain'_nil
  | cons k ks ih =>
      rw [List.flatMap_cons, List.chain'_append]
      refine ⟨chain'_annotatedSection data k, ih, ?_⟩
      intro x _ y hy
      exact subOK_of_not_sub x y (report_head_not_sub data ks y hy)

theorem sub_mem_annotatedReport (data : List Record) (c s2 : Record)
    (h : ARow.sub c s2 ∈ annotatedReport data) : parentMatches s2 c = true := by
  rw [annotatedReport] at h
  obtain ⟨k, _, hsec⟩ := List.mem_flatMap.mp h
  rw [annotatedSection] at hsec
  rcases List.mem_append.mp hsec with hbody | hsp
  · rcases List.mem_cons.mp hbody with hhd | hblocks
    · cases hhd
    · obtain ⟨c', _, hrow⟩ := List.mem_flatMap.mp hblocks
      rcases List.mem_cons.mp hrow with htask | hsub
      · cases htask
      · obtain ⟨s2', hs2', heq⟩ := List.mem_map.mp hsub
        injection heq with h1 h2
        subst h1
        subst h2
        exact (List.mem_filter.mp hs2').2
  · exact absurd (List.mem_singleton.mp hsp) (by simp)

/-- C5: in the emitted row sequence (annotated with each row's origin, and
erased to exactly the rows `generate_excel_report` produces), every
sub-task row directly follows either its own task's row or a sibling
sub-task row emitted under the same task; the first row of the report is
never a sub-task row (so no sub-task row precedes its task), and every
emitted sub-task row's `"Parent"` matches its task's `"Child Key"`
(line 281), which also pins it inside its own epic's section. -/
theorem claim_C5 (data : List Record) (rows : List (List Cell))
    (h : generateExcelReport data = .ok rows) :
    rows = (annotatedReport data).map (eraseA data) ∧
    (annotatedReport data).Chain' subOK ∧
    (∀ a, (annotatedReport data).head? = some a → a.isSub = false) ∧
    (∀ c s2, ARow.sub c s2 ∈ annotatedReport data → parentMatches s2 c = true) := by
  refine ⟨?_, chain'_annotatedReport data, ?_, fun c s2 hm =>
    sub_mem_annotatedReport data c s2 hm⟩
  · rw [generate_ok_rows data rows h, eraseA_annotatedReport]
  · intro a ha
    rw [annotatedReport] at ha
    exact report_head_not_sub data _ a ha

theorem claim_C5_witness :
    (annotatedReport
      [taskRecord "NOOPT-5" "Epic Five" "NOOPT-6" "T" "Done" none " ",
       subTaskRecord "NOOPT-5" "Epic Five" "NOOPT-7" "S" "New" none " " "NOOPT-6"]).Chain'
      subOK ∧
    (∀ c s2, ARow.sub c s2 ∈ annotatedReport
      [taskRecord "NOOPT-5" "Epic Five" "NOOPT-6" "T" "Done" none " ",
       subTaskRecord "NOOPT-5" "Epic Five" "NOOPT-7" "S" "New" none " " "NOOPT-6"] →
      parentMatches s2 c = true) := by
  have h : generateExcelReport
      [taskRecord "NOOPT-5" "Epic Five" "NOOPT-6" "T" "Done" none " ",
       subTaskRecord "NOOPT-5" "Epic Five" "NOOPT-7" "S" "New" none " " "NOOPT-6"] =
      Except.ok ((annotatedReport
        [taskRecord "NOOPT-5" "Epic Five" "NOOPT-6" "T" "Done" none " ",
         subTaskRecord "NOOPT-5" "Epic Five" "NOOPT-7" "S" "New" none " " "NOOPT-6"]).map
        (eraseA
          [taskRecord "NOOPT-5" "Epic Five" "NOOPT-6" "T" "Done" none " ",
           subTaskRecord "NOOPT-5" "Epic Five" "NOOPT-7" "S" "New" none " " "NOOPT-6"])) := by
    decide
  have hc := claim_C5 _ _ h
  exact ⟨hc.2.1, hc.2.2.2⟩

/-! ## The Done highlight. -/

theorem matchesEpicHeader_empty : matchesEpicHeader "" = false := rfl

/-- C6 counterexample: a task whose status is `"done"` (lower case). The
claim's case-normalized test says the row should be highlighted, but the
formatter's test is `value.strip() == "Done"` (line 408), which is
case-sensitive: no cell receives the Done fill. -/
theorem claim_C6_counterexample :
    claimedDoneTest "done" = true ∧
    (rowFmt (taskRowCells
      [taskRecord "NOOPT-1" "Epic" "NOOPT-2" "T" "done" none " "]
      (taskRecord "NOOPT-1" "Epic" "NOOPT-2" "T" "done" none " "))).doneCols = [] :=
  ⟨by decide, by decide⟩

/-- C6 (amended): a task or sub-task row receives the Done fill exactly
when its status, stripped of surrounding whitespace, equals `"Done"`
case-sensitively (`value.strip() == "Done"`, line 408); for a task row
(indent 0) the fill covers columns A-F, for a sub-task row (indent 1) only
B-F (column A keeps the gray sub-task spacer fill); a sub-task's highlight
is decided by its own status alone — no other record's status occurs in
the statement. -/
theorem claim_C6_amended :
    (∀ (data : List Record) (c : Record) (st : String),
      c.childStatus = some st → c.indent = some 0 →
      (rowFmt (taskRowCells data c)).isHeader = false ∧
      (rowFmt (taskRowCells data c)).indentLevel = 0 ∧
      (rowFmt (taskRowCells data c)).doneCols =
        (if pyStrip st = "Done" then [0, 1, 2, 3, 4, 5] else [])) ∧
    (∀ (data : List Record) (s2 : Record) (st : String),
      s2.childStatus = some st → s2.indent = some 1 →
      (rowFmt (subRowCells data s2)).isHeader = false ∧
      (rowFmt (subRowCells data s2)).indentLevel = 1 ∧
      (rowFmt (subRowCells data s2)).doneCols =
        (if pyStrip st = "Done" then [1, 2, 3, 4, 5] else [])) := by
  constructor
  · intro data c st hst hind
    have hg : indentCell data c.indent 0 = Cell.nat 0 := by
      by_cases hci : hasColIndent data <;> simp [indentCell, hind, hci]
    by_cases hempty : st = ""
    · subst hempty
      simp [rowFmt, taskRowCells, readCell, wcell, cellS, hst, hg,
        matchesEpicHeader_empty, cellValueStr, pyStrip]
    · by_cases hdone : pyStrip st = "Done"
      · simp [rowFmt, taskRowCells, readCell, wcell, cellS, hst, hg, hempty,
          matchesEpicHeader_empty, cellValueStr, hdone]
      · simp [rowFmt, taskRowCells, readCell, wcell, cellS, hst, hg, hempty,
          matchesEpicHeader_empty, cellValueStr, hdone]
  · intro data s2 st hst hind
    have hg : indentCell data s2.indent 1 = Cell.nat 1 := by
      by_cases hci : hasColIndent data <;> simp [indentCell, hind, hci]
    by_cases hempty : st = ""
    · subst hempty
      simp [rowFmt, subRowCells, readCell, wcell, cellS, hst, hg,
        matchesEpicHeader_empty, cellValueStr, pyStrip]
    · by_cases hdone : pyStrip st = "Done"
      · simp [rowFmt, subRowCells, readCell, wcell, cellS, hst, hg, hempty,
          matchesEpicHeader_empty, cellValueStr, hdone]
      · simp [rowFmt, subRowCells, readCell, wcell, cellS, hst, hg, hempty,
          matchesEpicHeader_empty, cellValueStr, hdone]

theorem claim_C6_witness :
    (rowFmt (taskRowCells
      [taskRecord "NOOPT-1" "Epic" "NOOPT-2" "T" " Done " none " "]
      (taskRecord "NOOPT-1" "Epic" "NOOPT-2" "T" " Done " none " "))).doneCols =
      (if pyStrip " Done " = "Done" then [0, 1, 2, 3, 4, 5] else []) ∧
    (rowFmt (subRowCells
      [subTaskRecord "NOOPT-1" "Epic" "NOOPT-3" "S" "Done" none " " "NOOPT-2"]
      (subTaskRecord "NOOPT-1" "Epic" "NOOPT-3" "S" "Done" none " " "NOOPT-2"))).doneCols =
      (if pyStrip "Done" = "Done" then [1, 2, 3, 4, 5] else []) :=
  ⟨(claim_C6_amended.1 _ _ " Done " rfl rfl).2.2,
   (claim_C6_amended.2 _ _ "Done" rfl rfl).2.2⟩

/-! ## The extractor on well-formed documents (refinement against the
spec-side denotation). -/

theorem isStr_eq {t : J} {ty : String} : isStr t ty = true ↔ t = J.str ty := by
  cases t <;> simp [isStr]

theorem paragraphParts_textJ : ∀ texts : List String,
    paragraphParts (texts.map textJ) = .ok (texts.map J.str) := by
  intro texts
  induction texts with
  | nil => rfl
  | cons t ts ih =>
      simp only [List.map_cons, paragraphParts]
      rw [show getItem (textJ t) "type" = Except.ok (J.str "text") from rfl]
      show (if isStr (J.str "text") "text" = true then do
          let tx ← getItem (textJ t) "text"
          let rest ← paragraphParts (List.map textJ ts)
          pure (tx :: rest)
        else paragraphParts (List.map textJ ts)) = _
      rw [if_pos (by rfl)]
      rw [show getItem (textJ t) "text" = Except.ok (J.str t) from rfl]
      show (do
          let rest ← paragraphParts (List.map textJ ts)
          pure (J.str t :: rest)) = _
      rw [ih]
      rfl

theorem asStrings_map_str : ∀ ss : List String,
    asStrings (ss.map J.str) = .ok ss := by
  intro ss
  induction ss with
  | nil => rfl
  | cons s rest ih => simp only [List.map_cons, asStrings, ih]

theorem strJoin_map_str (ss : List String) :
    strJoin " " (ss.map J.str) = .ok (String.intercalate " " ss) := by
  rw [strJoin, asStrings_map_str]

theorem ebind_ok {e α β : Type} (a : α) (f : α → Except e β) :
    (Except.ok a >>= f) = f a := rfl

theorem parseBlockF_paraJ : ∀ (f : Nat) (texts : List String),
    parseBlockF (f + 1) (paraJ texts) = .ok (specParagraph texts) := by
  intro f texts
  rw [parseBlockF]
  rw [show getItem (paraJ texts) "type" = Except.ok (J.str "paragraph") from rfl]
  simp only [ebind_ok]
  rw [if_pos (show isStr (J.str "paragraph") "paragraph" = true from rfl)]
  rw [show pyIter (dictGet (paraJ texts) "content" (J.arr [])) =
    Except.ok (texts.map textJ) from rfl]
  simp only [ebind_ok]
  rw [paragraphParts_textJ]
  simp only [ebind_ok]
  rw [strJoin_map_str]
  rfl

theorem childParts_paraJ : ∀ (f : Nat) (ps : List (List String)),
    childParts "paragraph" (parseBlockF (f + 1)) (ps.map paraJ) =
      .ok (ps.map specParagraph) := by
  intro f ps
  induction ps with
  | nil => rfl
  | cons p rest ih =>
      simp only [List.map_cons, childParts]
      rw [show getItem (paraJ p) "type" = Except.ok (J.str "paragraph") from rfl]
      simp only [ebind_ok]
      rw [if_pos (show isStr (J.str "paragraph") "paragraph" = true from rfl)]
      rw [parseBlockF_paraJ]
      simp only [ebind_ok]
      rw [ih]
      rfl

theorem parseBlockF_itemJ : ∀ (f : Nat) (ps : List (List String)),
    parseBlockF (f + 2) (itemJ ps) = .ok (specListItem ps) := by
  intro f ps
  rw [parseBlockF]
  rw [show getItem (itemJ ps) "type" = Except.ok (J.str "listItem") from rfl]
  simp only [ebind_ok]
  rw [if_neg (show ¬ isStr (J.str "listItem") "paragraph" = true by simp [isStr])]
  rw [if_pos (show isStr (J.str "listItem") "listItem" = true from rfl)]
  rw [show pyIter (dictGet (itemJ ps) "content" (J.arr [])) =
    Except.ok (ps.map paraJ) from rfl]
  simp only [ebind_ok]
  rw [childParts_paraJ]
  rfl

theorem childParts_itemJ : ∀ (f : Nat) (items : List (List (List String))),
    childParts "listItem" (parseBlockF (f + 2)) (items.map itemJ) =
      .ok (items.map specListItem) := by
  intro f items
  induction items with
  | nil => rfl
  | cons it rest ih =>
      simp only [List.map_cons, childParts]
      rw [show getItem (itemJ it) "type" = Except.ok (J.str "listItem") from rfl]
      simp only [ebind_ok]
      rw [if_pos (show isStr (J.str "listItem") "listItem" = true from rfl)]
      rw [parseBlockF_itemJ]
      simp only [ebind_ok]
      rw [ih]
      rfl

theorem parseBlockF_listJ : ∀ (f : Nat) (ordered : Bool)
    (items : List (List (List String))),
    parseBlockF (f + 3) (listJ ordered items) =
      .ok (specBlock (.list ordered items)) := by
  intro f ordered items
  rw [parseBlockF]
  rw [show getItem (listJ ordered items) "type" =
    Except.ok (J.str (if ordered then "orderedList" else "bulletList")) from rfl]
  simp only [ebind_ok]
  cases ordered with
  | false =>
      rw [show (if false = true then "orderedList" else "bulletList") = "bulletList" from rfl]
      rw [if_neg (show ¬ isStr (J.str "bulletList") "paragraph" = true by simp [isStr])]
      rw [if_neg (show ¬ isStr (J.str "bulletList") "listItem" = true by simp [isStr])]
      rw [if_pos (show (isStr (J.str "bulletList") "orderedList" ||
        isStr (J.str "bulletList") "bulletList") = true from rfl)]
      rw [show pyIter (dictGet (listJ false items) "content" (J.arr [])) =
        Except.ok (items.map itemJ) from rfl]
      simp only [ebind_ok]
      rw [childParts_itemJ]
      rfl
  | true =>
      rw [show (if true = true then "orderedList" else "bulletList") = "orderedList" from rfl]
      rw [if_neg (show ¬ isStr (J.str "orderedList") "paragraph" = true by simp [isStr])]
      rw [if_neg (show ¬ isStr (J.str "orderedList") "listItem" = true by simp [isStr])]
      rw [if_pos (show (isStr (J.str "orderedList") "orderedList" ||
        isStr (J.str "orderedList") "bulletList") = true from rfl)]
      rw [show pyIter (dictGet (listJ true items) "content" (J.arr [])) =
        Except.ok (items.map itemJ) from rfl]
      simp only [ebind_ok]
      rw [childParts_itemJ]
      rfl

theorem parseBlockF_blockJ : ∀ (f : Nat) (b : SBlock),
    parseBlockF (f + 3) (blockJ b) = .ok (specBlock b) := by
  intro f b
  cases b with
  | para texts => exact parseBlockF_paraJ (f + 2) texts
  | list ordered items => exact parseBlockF_listJ f ordered items

theorem docParts_blockJ : ∀ bs : List SBlock,
    docParts parseBlock (bs.map blockJ) =
      .ok ((bs.map specBlock).filter (· ≠ "")) := by
  intro bs
  induction bs with
  | nil => rfl
  | cons b rest ih =>
      simp only [List.map_cons, docParts]
      rw [show parseBlock (blockJ b) = parseBlockF (1 + 3) (blockJ b) from rfl]
      rw [parseBlockF_blockJ]
      simp only [ebind_ok]
      rw [ih]
      simp only [ebind_ok]
      rw [List.filter_cons]
      by_cases hb : specBlock b = ""
      · rw [if_pos hb, if_neg (by simp [hb])]
        rfl
      · rw [if_neg hb, if_pos (by simp [hb])]
        rfl

/-- C9: on every well-formed document (paragraphs of text runs, ordered or
bullet lists of list items containing paragraphs), `parse_comment` computes
the spec's denotation: paragraphs join their text runs with single spaces,
a list item joins its paragraphs with a space behind `"- "`, lists join
their items with newlines, and the non-empty top-level results are joined
with newlines; in particular a bulletList of two items `"a"`, `"b"`
extracts to `"- a\n- b"`. -/
theorem claim_C9 :
    (∀ blocks : List SBlock, parseComment (docJ blocks) = .ok (specDoc blocks)) ∧
    parseComment (docJ [SBlock.list false [[["a"]], [["b"]]]]) = .ok "- a\n- b" := by
  constructor
  · intro blocks
    rw [show parseComment (docJ blocks) =
      (match docParts parseBlock (blocks.map blockJ) with
        | .error e => Except.error e
        | .ok parts => .ok (String.intercalate "\n" parts)) from rfl]
    rw [docParts_blockJ]
    rfl
  · rfl

theorem childParts_filter_paragraph (pb : J → Except PyErr String) :
    ∀ cs : List J, (∀ c ∈ cs, hasTypeField c = true) →
      childParts "paragraph" pb cs =
        childParts "paragraph" pb (cs.filter isParagraphTyped) := by
  intro cs
  induction cs with
  | nil => intro _; rfl
  | cons c cs ih =>
      intro h
      have hc := h c (List.mem_cons_self c cs)
      have hrest := fun x hx => h x (List.mem_cons_of_mem c hx)
      rw [hasTypeField] at hc
      rcases hg : getItem c "type" with e | t
      · rw [hg] at hc; simp at hc
      · rw [List.filter_cons]
        rw [show isParagraphTyped c = isStr t "paragraph" by rw [isParagraphTyped, hg]]
        by_cases hp : isStr t "paragraph" = true
        · rw [if_pos hp, childParts, childParts, hg, ebind_ok, ebind_ok,
            if_pos hp, if_pos hp]
          rw [ih hrest]
        · rw [if_neg hp, childParts, hg, ebind_ok, if_neg hp]
          exact ih hrest

/-- C10: a `"listItem"` block consumes only its `"paragraph"`-typed
children — parsing it equals parsing the same block with every
non-paragraph child removed (provided each child at least carries a
`"type"`, without which iteration raises) — so text nested inside a
sub-list of a list item is silently absent: a listItem holding the
paragraph `"a"` and a bulletList containing `"hidden"` extracts to
`"- a"`. -/
theorem claim_C10 :
    (∀ children : List J, (∀ c ∈ children, hasTypeField c = true) →
      parseBlock (listItemJ children) =
        parseBlock (listItemJ (children.filter isParagraphTyped))) ∧
    parseBlock (listItemJ [paraJ ["a"], blockJ (SBlock.list false [[["hidden"]]])]) =
      .ok "- a" := by
  constructor
  · intro children h
    have e1 : parseBlock (listItemJ children) =
        (do
          let parts ← childParts "paragraph" (parseBlockF 3) children
          pure ("- " ++ String.intercalate " " parts) : Except PyErr String) := rfl
    have e2 : parseBlock (listItemJ (children.filter isParagraphTyped)) =
        (do
          let parts ← childParts "paragraph" (parseBlockF 3)
            (children.filter isParagraphTyped)
          pure ("- " ++ String.intercalate " " parts) : Except PyErr String) := rfl
    rw [e1, e2, childParts_filter_paragraph (parseBlockF 3) children h]
  · rfl

theorem claim_C10_witness :
    (∀ c ∈ [paraJ ["a"], blockJ (SBlock.list false [[["hidden"]]])],
      hasTypeField c = true) ∧
    parseBlock (listItemJ [paraJ ["a"], blockJ (SBlock.list false [[["hidden"]]])]) =
      parseBlock (listItemJ
        ([paraJ ["a"], blockJ (SBlock.list false [[["hidden"]]])].filter
          isParagraphTyped)) :=
  ⟨by decide, claim_C10.1 _ (by decide)⟩

/-! ## Totality of the extractor on well-formed inputs. -/

theorem hasTypeField_iff {c : J} :
    hasTypeField c = true ↔ ∃ t, getItem c "type" = .ok t := by
  rcases h : getItem c "type" with e | t <;> simp [hasTypeField, h]

theorem typedAs_eq {b t : J} {ty : String} (hg : getItem b "type" = .ok t) :
    typedAs b ty = isStr t ty := by
  rw [typedAs, hg]

theorem asStrings_ok : ∀ parts : List J, (∀ p ∈ parts, ∃ s, p = J.str s) →
    ∃ ss, asStrings parts = .ok ss := by
  intro parts
  induction parts with
  | nil => intro _; exact ⟨[], rfl⟩
  | cons p rest ih =>
      intro h
      obtain ⟨ss, hss⟩ := ih (fun q hq => h q (List.mem_cons_of_mem p hq))
      obtain ⟨s, rfl⟩ := h p (List.mem_cons_self p rest)
      exact ⟨s :: ss, by rw [asStrings, hss]⟩

theorem strJoin_ok (parts : List J) (h : ∀ p ∈ parts, ∃ s, p = J.str s) :
    ∃ out, strJoin " " parts = .ok out := by
  obtain ⟨ss, hss⟩ := asStrings_ok parts h
  exact ⟨String.intercalate " " ss, by rw [strJoin, hss]⟩

theorem paragraphParts_wf : ∀ cs : List J, (∀ c ∈ cs, wfTextChild c = true) →
    ∃ parts, paragraphParts cs = .ok parts ∧ ∀ p ∈ parts, ∃ s, p = J.str s := by
  intro cs
  induction cs with
  | nil => intro _; exact ⟨[], rfl, fun q hq => absurd hq (List.not_mem_nil q)⟩
  | cons c cs ih =>
      intro hall
      have hc := hall c (List.mem_cons_self c cs)
      obtain ⟨parts, hp, hstr⟩ := ih (fun x hx => hall x (List.mem_cons_of_mem c hx))
      rw [wfTextChild, Bool.and_eq_true] at hc
      obtain ⟨hty, htext⟩ := hc
      obtain ⟨t, hg⟩ := hasTypeField_iff.mp hty
      rw [paragraphParts, hg, ebind_ok]
      by_cases hp2 : isStr t "text" = true
      · have htyped : typedAs c "text" = true := by rw [typedAs_eq hg]; exact hp2
        rw [htyped] at htext
        simp only [Bool.not_true, Bool.false_or] at htext
        rw [hasStrField] at htext
        rcases hx : getItem c "text" with e | v
        · rw [hx] at htext; simp at htext
        · cases v with
          | str s =>
              rw [if_pos hp2, ebind_ok, hp, ebind_ok]
              refine ⟨J.str s :: parts, rfl, ?_⟩
              intro p hpmem
              rcases List.mem_cons.mp hpmem with rfl | hpm
              · exact ⟨s, rfl⟩
              · exact hstr p hpm
          | num n => rw [hx] at htext; simp at htext
          | bool b => rw [hx] at htext; simp at htext
          | null => rw [hx] at htext; simp at htext
          | arr xs => rw [hx] at htext; simp at htext
          | obj fs => rw [hx] at htext; simp at htext
      · rw [if_neg hp2]
        exact ⟨parts, hp, hstr⟩

theorem childParts_ok (ty : String) (pb : J → Except PyErr String) :
    ∀ cs : List J,
      (∀ c ∈ cs, hasTypeField c = true ∧ (typedAs c ty = true → ∃ s, pb c = .ok s)) →
      ∃ rs, childParts ty pb cs = .ok rs := by
  intro cs
  induction cs with
  | nil => intro _; exact ⟨[], rfl⟩
  | cons c cs ih =>
      intro h
      obtain ⟨hty, hok⟩ := h c (List.mem_cons_self c cs)
      obtain ⟨rs, hrs⟩ := ih (fun x hx => h x (List.mem_cons_of_mem c hx))
      obtain ⟨t, hg⟩ := hasTypeField_iff.mp hty
      rw [childParts, hg, ebind_ok]
      by_cases hp : isStr t ty = true
      · obtain ⟨s, hs⟩ := hok (by rw [typedAs_eq hg]; exact hp)
        rw [if_pos hp, hs, ebind_ok, hrs, ebind_ok]
        exact ⟨s :: rs, rfl⟩
      · rw [if_neg hp]
        exact ⟨rs, hrs⟩

theorem parseBlockF_para_ok (f : Nat) (b : J) (hty : typedAs b "paragraph" = true)
    (hwf : wfParaBody b = true) : ∃ s, parseBlockF (f + 1) b = .ok s := by
  rcases hg : getItem b "type" with e | t
  · rw [typedAs, hg] at hty; simp at hty
  · rw [typedAs_eq hg] at hty
    rw [wfParaBody] at hwf
    rcases hc : dictGet b "content" (J.arr []) with s2 | n | bb | _ | cs | fs <;>
      rw [hc] at hwf <;> simp at hwf
    obtain ⟨parts, hp, hstr⟩ := paragraphParts_wf cs hwf
    obtain ⟨out, hout⟩ := strJoin_ok parts hstr
    refine ⟨out, ?_⟩
    rw [parseBlockF, hg, ebind_ok, if_pos hty, hc]
    rw [show pyIter (J.arr cs) = Except.ok cs from rfl, ebind_ok, hp, ebind_ok, hout]

theorem parseBlockF_li_ok (f : Nat) (b : J) (hty : typedAs b "listItem" = true)
    (hwf : wfLIBody b = true) : ∃ s, parseBlockF (f + 2) b = .ok s := by
  rcases hg : getItem b "type" with e | t
  · rw [typedAs, hg] at hty; simp at hty
  · rw [typedAs_eq hg] at hty
    have hne : isStr t "paragraph" = false := by
      rw [isStr_eq.mp hty]
      rfl
    rw [wfLIBody] at hwf
    rcases hc : dictGet b "content" (J.arr []) with s2 | n | bb | _ | cs | fs <;>
      rw [hc] at hwf <;> simp at hwf
    have hkids : ∀ c ∈ cs, hasTypeField c = true ∧
        (typedAs c "paragraph" = true → ∃ s, parseBlockF (f + 1) c = .ok s) := by
      intro c hcmem
      have hwfc := hwf c hcmem
      rw [wfLIChild, Bool.and_eq_true] at hwfc
      obtain ⟨h1, h2⟩ := hwfc
      refine ⟨h1, fun htyped => ?_⟩
      rw [htyped] at h2
      simp only [Bool.not_true, Bool.false_or] at h2
      exact parseBlockF_para_ok f c htyped h2
    obtain ⟨rs, hrs⟩ := childParts_ok "paragraph" (parseBlockF (f + 1)) cs hkids
    refine ⟨"- " ++ String.intercalate " " rs, ?_⟩
    rw [parseBlockF, hg, ebind_ok, if_neg (by simp [hne]), if_pos hty, hc]
    rw [show pyIter (J.arr cs) = Except.ok cs from rfl, ebind_ok, hrs, ebind_ok]
    rfl

theorem parseBlockF_list_ok (f : Nat) (b : J)
    (hty : (typedAs b "orderedList" || typedAs b "bulletList") = true)
    (hwf : wfListBody b = true) : ∃ s, parseBlockF (f + 3) b = .ok s := by
  rcases hg : getItem b "type" with e | t
  · rw [typedAs, typedAs, hg] at hty; simp at hty
  · rw [typedAs_eq hg, typedAs_eq hg] at hty
    have hcases : isStr t "orderedList" = true ∨ isStr t "bulletList" = true := by
      simpa using hty
    have hconds : isStr t "paragraph" = false ∧ isStr t "listItem" = false := by
      rcases hcases with h | h <;> rw [isStr_eq.mp h] <;> exact ⟨rfl, rfl⟩
    rw [wfListBody] at hwf
    rcases hc : dictGet b "content" (J.arr []) with s2 | n | bb | _ | cs | fs <;>
      rw [hc] at hwf <;> simp at hwf
    have hkids : ∀ c ∈ cs, hasTypeField c = true ∧
        (typedAs c "listItem" = true → ∃ s, parseBlockF (f + 2) c = .ok s) := by
      intro c hcmem
      have hwfc := hwf c hcmem
      rw [wfListChild, Bool.and_eq_true] at hwfc
      obtain ⟨h1, h2⟩ := hwfc
      refine ⟨h1, fun htyped => ?_⟩
      rw [htyped] at h2
      simp only [Bool.not_true, Bool.false_or] at h2
      exact parseBlockF_li_ok f c htyped h2
    obtain ⟨rs, hrs⟩ := childParts_ok "listItem" (parseBlockF (f + 2)) cs hkids
    refine ⟨String.intercalate "\n" rs, ?_⟩
    rw [parseBlockF, hg, ebind_ok, if_neg (by simp [hconds.1]),
      if_neg (by simp [hconds.2]), if_pos hty, hc]
    rw [show pyIter (J.arr cs) = Except.ok cs from rfl, ebind_ok, hrs, ebind_ok]
    rfl

theorem parseBlockF_wfBlock_ok (f : Nat) (b : J) (hwf : wfBlock b = true) :
    ∃ s, parseBlockF (f + 3) b = .ok s := by
  rw [wfBlock, Bool.and_eq_true, Bool.and_eq_true, Bool.and_eq_true] at hwf
  obtain ⟨⟨⟨hty, hpara⟩, hli⟩, hlist⟩ := hwf
  obtain ⟨t, hg⟩ := hasTypeField_iff.mp hty
  by_cases h1 : isStr t "paragraph" = true
  · have htyped : typedAs b "paragraph" = true := by rw [typedAs_eq hg]; exact h1
    rw [htyped] at hpara
    simp only [Bool.not_true, Bool.false_or] at hpara
    exact parseBlockF_para_ok (f + 2) b htyped hpara
  · by_cases h2 : isStr t "listItem" = true
    · have htyped : typedAs b "listItem" = true := by rw [typedAs_eq hg]; exact h2
      rw [htyped] at hli
      simp only [Bool.not_true, Bool.false_or] at hli
      exact parseBlockF_li_ok (f + 1) b htyped hli
    · by_cases h3 : (isStr t "orderedList" || isStr t "bulletList") = true
      · have htyped : (typedAs b "orderedList" || typedAs b "bulletList") = true := by
          rw [typedAs_eq hg, typedAs_eq hg]
          exact h3
        rw [htyped] at hlist
        simp only [Bool.not_true, Bool.false_or] at hlist
        exact parseBlockF_list_ok f b htyped hlist
      · refine ⟨"", ?_⟩
        rw [parseBlockF, hg, ebind_ok, if_neg (by simp [h1]), if_neg (by simp [h2]),
          if_neg (by simp [h3])]
        rfl

theorem docParts_ok : ∀ bs : List J, (∀ b ∈ bs, wfBlock b = true) →
    ∃ ps, docParts parseBlock bs = .ok ps := by
  intro bs
  induction bs with
  | nil => intro _; exact ⟨[], rfl⟩
  | cons b bs ih =>
      intro hall
      obtain ⟨s, hs⟩ := parseBlockF_wfBlock_ok 1 b (hall b (List.mem_cons_self b bs))
      obtain ⟨ps, hps⟩ := ih (fun x hx => hall x (List.mem_cons_of_mem b hx))
      refine ⟨if s = "" then ps else s :: ps, ?_⟩
      rw [docParts, show parseBlock b = parseBlockF (1 + 3) b from rfl, hs, ebind_ok,
        hps, ebind_ok]
      rfl

theorem natDigitsF_ne_nil : ∀ (f n : Nat) (acc : List Char), acc ≠ [] →
    natDigitsF f n acc ≠ [] := by
  intro f
  induction f with
  | zero => intro n acc h; exact h
  | succ f ih =>
      intro n acc h
      rw [natDigitsF]
      by_cases hn : n < 10
      · rw [if_pos hn]
        simp
      · rw [if_neg hn]
        exact ih _ _ (by simp)

theorem natRepr_ne_empty (n : Nat) : natRepr n ≠ "" := by
  intro h
  have hd := congrArg String.data h
  rw [natRepr] at hd
  rw [show (String.mk (natDigitsF (n + 1) n [])).data = natDigitsF (n + 1) n [] from rfl,
    show ("" : String).data = [] from rfl] at hd
  rw [natDigitsF] at hd
  by_cases hn : n < 10
  · rw [if_pos hn] at hd
    simp at hd
  · rw [if_neg hn] at hd
    exact natDigitsF_ne_nil _ _ _ (by simp) hd

theorem str_append_ne_empty_right (a b : String) (h : b ≠ "") : a ++ b ≠ "" := by
  intro he
  have hd := congrArg String.data he
  rw [String.data_append, show ("" : String).data = [] from rfl] at hd
  obtain ⟨_, hb⟩ := List.append_eq_nil.mp hd
  exact h (String.ext hb)

theorem intRepr_ne_empty (n : Int) : intRepr n ≠ "" := by
  cases n with
  | ofNat m => exact natRepr_ne_empty m
  | negSucc m =>
      rw [intRepr]
      exact str_append_ne_empty_right _ _ (natRepr_ne_empty (m + 1))

/-- `json.dumps` never yields the empty string. -/
theorem jdumps_ne_empty : ∀ v : J, jdumps v ≠ "" := by
  intro v
  rw [jdumps]
  cases v with
  | null => decide
  | bool b => cases b <;> decide
  | num n =>
      rw [show jdumpsV 0 (J.num n) = intRepr n from rfl]
      exact intRepr_ne_empty n
  | str s =>
      rw [show jdumpsV 0 (J.str s) = "\"" ++ jEscape s ++ "\"" from rfl]
      exact str_append_ne_empty_right _ _ (by decide)
  | arr xs =>
      cases xs with
      | nil => decide
      | cons x rest =>
          rw [show jdumpsV 0 (J.arr (x :: rest)) =
            "[\n" ++ jIndent 1 ++ jdumpsV 1 x ++ jdumpsRest 1 rest ++ "\n" ++
              jIndent 0 ++ "]" from rfl]
          exact str_append_ne_empty_right _ _ (by decide)
  | obj fs =>
      cases fs with
      | nil => decide
      | cons f rest =>
          rw [show jdumpsV 0 (J.obj (f :: rest)) =
            "\x7b\n" ++ jIndent 1 ++ jdumpsField 1 f ++ jdumpsFieldsRest 1 rest ++
              "\n" ++ jIndent 0 ++ "\x7d" from rfl]
          exact str_append_ne_empty_right _ _ (by decide)

/-- C2 counterexample: the extractor is not total. A doc whose `content`
holds a dict without a `"type"` key makes `parse_block` raise
`KeyError: 'type'` (line 197 evaluates `block["type"]`), so
`parse_comment` propagates an exception instead of returning a string. -/
theorem claim_C2_counterexample :
    parseComment (J.obj [("type", J.str "doc"), ("content", J.arr [J.obj []])]) =
      .error (.keyError "type") := rfl

/-- C2 (amended): the extractor is total on inputs whose doc blocks are
well-formed — every node a dict with a `"type"`, text nodes carrying a
string `"text"`, container contents being arrays. On such inputs it
returns a string; every input that is not a dict with type `"doc"` yields
the non-empty `json.dumps` serialization of the raw input (the function
is deterministic); and a typed but unrecognized block contributes `""`
rather than failing. Outside that well-formed fragment `parse_comment` can
raise (see the counterexample). -/
theorem claim_C2_amended :
    (∀ j : J, wfCommentInput j = true →
      ∃ s, parseComment j = .ok s ∧
        (isDocRoot j = false → s = jdumps j ∧ s ≠ "")) ∧
    (∀ (b t : J), getItem b "type" = .ok t →
      isStr t "paragraph" = false → isStr t "listItem" = false →
      isStr t "orderedList" = false → isStr t "bulletList" = false →
      parseBlock b = .ok "") := by
  constructor
  · intro j hwf
    cases j with
    | obj fields =>
        by_cases hdoc : isStr ((fields.lookup "type").getD J.null) "doc" = true
        · have hroot : isDocRoot (J.obj fields) = true := hdoc
          rw [wfCommentInput, if_pos hroot] at hwf
          rcases hc : dictGet (J.obj fields) "content" (J.arr [])
            with s2 | n | bb | _ | bs | fs <;> rw [hc] at hwf <;> simp at hwf
          obtain ⟨ps, hps⟩ := docParts_ok bs hwf
          refine ⟨String.intercalate "\n" ps, ?_, ?_⟩
          · rw [show parseComment (J.obj fields) =
              (if isStr ((fields.lookup "type").getD J.null) "doc" = true then
                match pyIter (dictGet (J.obj fields) "content" (J.arr [])) with
                | .error e => Except.error e
                | .ok blocks =>
                    match docParts parseBlock blocks with
                    | .error e => .error e
                    | .ok parts => .ok (String.intercalate "\n" parts)
              else .ok (jdumps (J.obj fields))) from rfl]
            rw [if_pos hdoc, hc]
            show (match docParts parseBlock bs with
              | Except.error e => Except.error e
              | Except.ok parts => Except.ok (String.intercalate "\n" parts)) =
              Except.ok (String.intercalate "\n" ps)
            rw [hps]
          · intro hfalse
            rw [hroot] at hfalse
            cases hfalse
        · have hdoc' : isStr ((fields.lookup "type").getD J.null) "doc" = false := by
            simpa using hdoc
          refine ⟨jdumps (J.obj fields), ?_, fun _ => ⟨rfl, jdumps_ne_empty _⟩⟩
          rw [show parseComment (J.obj fields) =
            (if isStr ((fields.lookup "type").getD J.null) "doc" = true then
              match pyIter (dictGet (J.obj fields) "content" (J.arr [])) with
              | .error e => Except.error e
              | .ok blocks =>
                  match docParts parseBlock blocks with
                  | .error e => .error e
                  | .ok parts => .ok (String.intercalate "\n" parts)
            else .ok (jdumps (J.obj fields))) from rfl]
          rw [if_neg (by simp [hdoc'])]
    | str s => exact ⟨jdumps (J.str s), rfl, fun _ => ⟨rfl, jdumps_ne_empty _⟩⟩
    | num n => exact ⟨jdumps (J.num n), rfl, fun _ => ⟨rfl, jdumps_ne_empty _⟩⟩
    | bool b => exact ⟨jdumps (J.bool b), rfl, fun _ => ⟨rfl, jdumps_ne_empty _⟩⟩
    | null => exact ⟨jdumps J.null, rfl, fun _ => ⟨rfl, jdumps_ne_empty _⟩⟩
    | arr xs => exact ⟨jdumps (J.arr xs), rfl, fun _ => ⟨rfl, jdumps_ne_empty _⟩⟩
  · intro b t hg h1 h2 h3 h4
    rw [show parseBlock b = parseBlockF (3 + 1) b from rfl, parseBlockF, hg, ebind_ok,
      if_neg (by simp [h1]), if_neg (by simp [h2]), if_neg (by simp [h3, h4])]
    rfl

theorem claim_C2_witness :
    (∃ s, parseComment (J.num 5) = .ok s ∧
      (isDocRoot (J.num 5) = false → s = jdumps (J.num 5) ∧ s ≠ "")) ∧
    parseBlock (J.obj [("type", J.str "mediaSingle")]) = .ok "" :=
  ⟨claim_C2_amended.1 (J.num 5) (by decide),
   claim_C2_amended.2 (J.obj [("type", J.str "mediaSingle")]) (J.str "mediaSingle")
     rfl (by decide) (by decide) (by decide) (by decide)⟩

/-! ## Timestamp parsing: the two accepted formats round-trip. -/

theorem obind_some {α β : Type} (a : α) (f : α → Option β) :
    (some a >>= f) = f a := rfl

theorem dv9 : ∀ d : Nat, d ≤ 9 → digitVal (digitChar d) = some d := by decide

theorem tn9 : ∀ d : Nat, d ≤ 9 → (digitChar d).toNat = 48 + d := by decide

theorem digitChar_ne_colon : ∀ d : Nat, d ≤ 9 → digitChar d ≠ ':' := by decide

theorem digitChar_range9 : ∀ d : Nat, d ≤ 9 →
    ('0' ≤ digitChar d ∧ digitChar d ≤ '9') := by decide

theorem digitChar_range19 : ∀ d : Nat, 1 ≤ d → d ≤ 9 →
    ('1' ≤ digitChar d ∧ digitChar d ≤ '9') := by decide

theorem digitChar_range02 : ∀ d : Nat, d ≤ 2 →
    ('0' ≤ digitChar d ∧ digitChar d ≤ '2') := by decide

theorem digitChar_range01 : ∀ d : Nat, d ≤ 1 →
    ('0' ≤ digitChar d ∧ digitChar d ≤ '1') := by decide

theorem digitChar_range03 : ∀ d : Nat, d ≤ 3 →
    ('0' ≤ digitChar d ∧ digitChar d ≤ '3') := by decide

theorem digitChar_range05 : ∀ d : Nat, d ≤ 5 →
    ('0' ≤ digitChar d ∧ digitChar d ≤ '5') := by decide

theorem digitChar_ne6_of_le5 : ∀ d : Nat, d ≤ 5 → digitChar d ≠ '6' := by decide

theorem parseYear4_pad (y : Nat) (hy : y ≤ 9999) (rest : List Char) :
    parseYear4 (pad4 y ++ rest) = some (y, rest) := by
  have e1 := dv9 (y / 1000 % 10) (by omega)
  have e2 := dv9 (y / 100 % 10) (by omega)
  have e3 := dv9 (y / 10 % 10) (by omega)
  have e4 := dv9 (y % 10) (by omega)
  simp only [pad4, List.cons_append, List.nil_append, parseYear4, e1, e2, e3, e4]
  have hval : 1000 * (y / 1000 % 10) + 100 * (y / 100 % 10) + 10 * (y / 10 % 10) +
      y % 10 = y := by omega
  rw [hval]

theorem parse2Any_pad (n : Nat) (hn : n ≤ 99) (rest : List Char) :
    parse2Any (pad2 n ++ rest) = some (n, rest) := by
  have e1 := dv9 (n / 10 % 10) (by omega)
  have e2 := dv9 (n % 10) (by omega)
  simp only [pad2, List.cons_append, List.nil_append, parse2Any, e1, e2]
  have hval : 10 * (n / 10 % 10) + n % 10 = n := by omega
  rw [hval]

theorem parse2Low_pad (n : Nat) (hn : n ≤ 59) (rest : List Char) :
    parse2Low (pad2 n ++ rest) = some (n, rest) := by
  have h1 := digitChar_range05 (n / 10 % 10) (by omega)
  have h2 := digitChar_range9 (n % 10) (by omega)
  have t1 := tn9 (n / 10 % 10) (by omega)
  have t2 := tn9 (n % 10) (by omega)
  simp only [pad2, List.cons_append, List.nil_append, parse2Low]
  rw [if_pos ⟨h1, h2⟩, t1, t2]
  have hval : 10 * (48 + n / 10 % 10 - 48) + (48 + n % 10 - 48) = n := by omega
  rw [hval]

theorem skipColon_digit (d : Nat) (hd : d ≤ 9) (l : List Char) :
    skipColon (digitChar d :: l) = digitChar d :: l := by
  have hne := digitChar_ne_colon d hd
  rw [skipColon, if_neg hne]

theorem takeDigits_pad6 (f : Nat) (rest : List Char) :
    takeDigits 6 (pad6 f ++ rest) = ([f / 100000 % 10, f / 10000 % 10, f / 1000 % 10,
      f / 100 % 10, f / 10 % 10, f % 10], rest) := by
  have e1 := dv9 (f / 100000 % 10) (by omega)
  have e2 := dv9 (f / 10000 % 10) (by omega)
  have e3 := dv9 (f / 1000 % 10) (by omega)
  have e4 := dv9 (f / 100 % 10) (by omega)
  have e5 := dv9 (f / 10 % 10) (by omega)
  have e6 := dv9 (f % 10) (by omega)
  simp only [pad6, List.cons_append, List.nil_append, takeDigits, e1, e2, e3, e4, e5, e6]
  rfl

theorem parseFrac_pad6 (f : Nat) (hf : f ≤ 999999) (rest : List Char) :
    parseFrac (pad6 f ++ rest) = some (f, rest) := by
  rw [parseFrac, takeDigits_pad6 f rest]
  simp only [List.foldl_cons, List.foldl_nil, List.length_cons, List.length_nil,
    Option.some.injEq, Prod.mk.injEq]
  refine ⟨?_, trivial⟩
  norm_num
  omega

theorem parseMonth_pad (m : Nat) (h1 : 1 ≤ m) (h2 : m ≤ 12) (rest : List Char) :
    parseMonth (pad2 m ++ rest) = some (m, rest) := by
  rcases Nat.lt_or_ge m 10 with hm | hm
  · have hd1 : m / 10 % 10 = 0 := by omega
    have hd2 : m % 10 = m := by omega
    simp only [pad2, hd1, hd2, List.cons_append, List.nil_append, parseMonth]
    rw [if_neg (fun hcontra => absurd hcontra.1 (by decide)),
      if_pos ⟨rfl, digitChar_range19 m h1 (by omega)⟩, tn9 m (by omega)]
    have : 48 + m - 48 = m := by omega
    rw [this]
  · have hd1 : m / 10 % 10 = 1 := by omega
    have hd2 : m % 10 = m - 10 := by omega
    simp only [pad2, hd1, hd2, List.cons_append, List.nil_append, parseMonth]
    rw [if_pos ⟨rfl, digitChar_range02 (m - 10) (by omega)⟩, tn9 (m - 10) (by omega)]
    have : 10 + (48 + (m - 10) - 48) = m := by omega
    rw [this]

theorem digitChar_range12 : ∀ q : Nat, 1 ≤ q → q ≤ 2 →
    ('1' ≤ digitChar q ∧ digitChar q ≤ '2') := by decide

theorem digitChar_ne3_of_le2 : ∀ q : Nat, q ≤ 2 → digitChar q ≠ '3' := by decide

theorem parseDay_pad (d : Nat) (h1 : 1 ≤ d) (h2 : d ≤ 31) (rest : List Char) :
    parseDay (pad2 d ++ rest) = some (d, rest) := by
  rcases Nat.lt_or_ge d 10 with hd | hd
  · have hq : d / 10 % 10 = 0 := by omega
    have hr : d % 10 = d := by omega
    simp only [pad2, hq, hr, List.cons_append, List.nil_append, parseDay]
    rw [if_neg (fun hcontra => absurd hcontra.1 (by decide)),
      if_neg (fun hcontra => absurd hcontra.1.1 (by decide)),
      if_pos ⟨by decide, digitChar_range19 d h1 (by omega)⟩]
    rw [tn9 d (by omega)]
    have : 48 + d - 48 = d := by omega
    rw [this]
  · rcases Nat.lt_or_ge d 30 with hd3 | hd3
    · have hq : d / 10 % 10 = d / 10 := by omega
      simp only [pad2, hq, List.cons_append, List.nil_append, parseDay]
      rw [if_neg (fun hcontra =>
          absurd hcontra.1 (digitChar_ne3_of_le2 (d / 10) (by omega))),
        if_pos ⟨digitChar_range12 (d / 10) (by omega) (by omega),
          digitChar_range9 (d % 10) (by omega)⟩,
        tn9 (d / 10) (by omega), tn9 (d % 10) (by omega)]
      have : 10 * (48 + d / 10 - 48) + (48 + d % 10 - 48) = d := by omega
      rw [this]
    · have hq : d / 10 % 10 = 3 := by omega
      simp only [pad2, hq, List.cons_append, List.nil_append, parseDay]
      rw [if_pos ⟨by decide, digitChar_range01 (d % 10) (by omega)⟩,
        tn9 (d % 10) (by omega)]
      have : 30 + (48 + d % 10 - 48) = d := by omega
      rw [this]

theorem digitChar_ne2_of_le1 : ∀ q : Nat, q ≤ 1 → digitChar q ≠ '2' := by decide

theorem parseHour_pad (h : Nat) (hle : h ≤ 23) (rest : List Char) :
    parseHour (pad2 h ++ rest) = some (h, rest) := by
  rcases Nat.lt_or_ge h 20 with hh | hh
  · have hq : h / 10 % 10 = h / 10 := by omega
    simp only [pad2, hq, List.cons_append, List.nil_append, parseHour]
    rw [if_neg (fun hcontra =>
        absurd hcontra.1 (digitChar_ne2_of_le1 (h / 10) (by omega))),
      if_pos ⟨digitChar_range01 (h / 10) (by omega), digitChar_range9 (h % 10) (by omega)⟩,
      tn9 (h / 10) (by omega), tn9 (h % 10) (by omega)]
    have : 10 * (48 + h / 10 - 48) + (48 + h % 10 - 48) = h := by omega
    rw [this]
  · have hq : h / 10 % 10 = 2 := by omega
    have hr : h % 10 = h - 20 := by omega
    simp only [pad2, hq, hr, List.cons_append, List.nil_append, parseHour]
    rw [if_pos ⟨by decide, digitChar_range03 (h - 20) (by omega)⟩, tn9 (h - 20) (by omega)]
    have : 20 + (48 + (h - 20) - 48) = h := by omega
    rw [this]

theorem parseMinute_pad (m : Nat) (hm : m ≤ 59) (rest : List Char) :
    parseMinute (pad2 m ++ rest) = some (m, rest) := by
  simp only [pad2, List.cons_append, List.nil_append, parseMinute]
  rw [if_pos ⟨digitChar_range05 (m / 10 % 10) (by omega),
      digitChar_range9 (m % 10) (by omega)⟩,
    tn9 (m / 10 % 10) (by omega), tn9 (m % 10) (by omega)]
  have : 10 * (48 + m / 10 % 10 - 48) + (48 + m % 10 - 48) = m := by omega
  rw [this]

theorem parseSecond_pad (s : Nat) (hs : s ≤ 59) (rest : List Char) :
    parseSecond (pad2 s ++ rest) = some (s, rest) := by
  simp only [pad2, List.cons_append, List.nil_append, parseSecond]
  rw [if_neg (fun hcontra =>
      absurd hcontra.1 (digitChar_ne6_of_le5 (s / 10 % 10) (by omega))),
    if_pos ⟨digitChar_range05 (s / 10 % 10) (by omega),
      digitChar_range9 (s % 10) (by omega)⟩,
    tn9 (s / 10 % 10) (by omega), tn9 (s % 10) (by omega)]
  have : 10 * (48 + s / 10 % 10 - 48) + (48 + s % 10 - 48) = s := by omega
  rw [this]

theorem expectChar_cons (c : Char) (l : List Char) : expectChar c (c :: l) = some l := by
  rw [expectChar, if_pos rfl]

theorem expectChar_none (c x : Char) (l : List Char) (hne : ¬ x = c) :
    expectChar c (x :: l) = none := by
  rw [expectChar, if_neg hne]

theorem expectT_cons (l : List Char) : expectT ('T' :: l) = some l := by
  rw [expectT, if_pos (Or.inl rfl)]

theorem expectDot_sign (neg : Bool) (l : List Char) :
    expectChar '.' ((if neg then '-' else '+') :: l) = none := by
  cases neg
  · exact expectChar_none '.' '+' l (by decide)
  · exact expectChar_none '.' '-' l (by decide)

theorem obind_none {α β : Type} (f : α → Option β) :
    ((none : Option α) >>= f) = none := rfl

theorem data_mk (l : List Char) : (String.mk l).data = l := rfl

theorem daysInMonth_le31 (y m : Nat) : daysInMonth y m ≤ 31 := by
  rw [daysInMonth]
  split
  · split <;> omega
  · split <;> omega

theorem parseZ_pad (neg : Bool) (oh om : Nat) (hoh : oh ≤ 23) (hom : om ≤ 59) :
    parseZ ((if neg then '-' else '+') :: (pad2 oh ++ pad2 om)) =
      some ((if neg then -(((oh * 3600 + om * 60) * 1000000 : Nat) : Int)
             else (((oh * 3600 + om * 60) * 1000000 : Nat) : Int)), []) := by
  have hmm : parse2Low (pad2 om) = some (om, []) := by
    have hx := parse2Low_pad om hom []
    rwa [List.append_nil] at hx
  have hsk : skipColon (pad2 om) = pad2 om :=
    skipColon_digit (om / 10 % 10) (by omega) [digitChar (om % 10)]
  cases neg
  · show parseZ ('+' :: (pad2 oh ++ pad2 om)) =
      some ((((oh * 3600 + om * 60) * 1000000 : Nat) : Int), [])
    simp only [parseZ]
    rw [if_neg (by decide), if_pos (Or.inl trivial), parse2Any_pad oh (by omega) (pad2 om)]
    simp only [hsk, hmm]
    simp only [skipColon, parse2Low]
    norm_num
    exact fun hc => absurd hc (by decide)
  · show parseZ ('-' :: (pad2 oh ++ pad2 om)) =
      some (-(((oh * 3600 + om * 60) * 1000000 : Nat) : Int), [])
    simp only [parseZ]
    rw [if_neg (by decide), if_pos (Or.inr trivial), parse2Any_pad oh (by omega) (pad2 om)]
    simp only [hsk, hmm]
    simp only [skipColon, parse2Low]
    norm_num

theorem strptime_plain_ok (y mo d h mi s : Nat) (neg : Bool) (oh om : Nat)
    (hy2 : y ≤ 9999) (hmo1 : 1 ≤ mo) (hmo2 : mo ≤ 12) (hd1 : 1 ≤ d) (hd31 : d ≤ 31)
    (hh : h ≤ 23) (hmi : mi ≤ 59) (hs : s ≤ 59) (hoh : oh ≤ 23) (hom : om ≤ 59) :
    strptimeCore false (isoPlain y mo d h mi s neg oh om).data =
      mkDatetime y mo d h mi s 0
        (if neg then -(((oh * 3600 + om * 60) * 1000000 : Nat) : Int)
         else (((oh * 3600 + om * 60) * 1000000 : Nat) : Int)) := by
  rw [isoPlain, data_mk, strptimeCore]
  simp only [List.append_assoc, List.cons_append, parseYear4_pad y hy2, obind_some,
    expectChar_cons, parseMonth_pad mo hmo1 hmo2, parseDay_pad d hd1 hd31, expectT_cons,
    parseHour_pad h hh, parseMinute_pad mi hmi, parseSecond_pad s hs]
  rw [if_neg (by decide : ¬ (false = true))]
  rw [parseZ_pad neg oh om hoh hom]
  simp only [obind_some]
  rw [if_pos trivial]

theorem strptime_frac_on_plain (y mo d h mi s : Nat) (neg : Bool) (oh om : Nat)
    (hy2 : y ≤ 9999) (hmo1 : 1 ≤ mo) (hmo2 : mo ≤ 12) (hd1 : 1 ≤ d) (hd31 : d ≤ 31)
    (hh : h ≤ 23) (hmi : mi ≤ 59) (hs : s ≤ 59) :
    strptimeCore true (isoPlain y mo d h mi s neg oh om).data = none := by
  rw [isoPlain, data_mk, strptimeCore]
  simp only [List.append_assoc, List.cons_append, parseYear4_pad y hy2, obind_some,
    expectChar_cons, parseMonth_pad mo hmo1 hmo2, parseDay_pad d hd1 hd31, expectT_cons,
    parseHour_pad h hh, parseMinute_pad mi hmi, parseSecond_pad s hs]
  rw [if_pos trivial, expectDot_sign neg, obind_none]

theorem strptime_frac_ok (y mo d h mi s f : Nat) (neg : Bool) (oh om : Nat)
    (hy2 : y ≤ 9999) (hmo1 : 1 ≤ mo) (hmo2 : mo ≤ 12) (hd1 : 1 ≤ d) (hd31 : d ≤ 31)
    (hh : h ≤ 23) (hmi : mi ≤ 59) (hs : s ≤ 59) (hf : f ≤ 999999)
    (hoh : oh ≤ 23) (hom : om ≤ 59) :
    strptimeCore true (isoFrac y mo d h mi s f neg oh om).data =
      mkDatetime y mo d h mi s f
        (if neg then -(((oh * 3600 + om * 60) * 1000000 : Nat) : Int)
         else (((oh * 3600 + om * 60) * 1000000 : Nat) : Int)) := by
  rw [isoFrac, data_mk, strptimeCore]
  simp only [List.append_assoc, List.cons_append, parseYear4_pad y hy2, obind_some,
    expectChar_cons, parseMonth_pad mo hmo1 hmo2, parseDay_pad d hd1 hd31, expectT_cons,
    parseHour_pad h hh, parseMinute_pad mi hmi, parseSecond_pad s hs]
  rw [if_pos trivial]
  simp only [expectChar_cons, obind_some, parseFrac_pad6 f hf]
  rw [parseZ_pad neg oh om hoh hom]
  simp only [obind_some]
  rw [if_pos trivial]

theorem renderOffset_pad (neg : Bool) (oh om : Nat) (hoh : oh ≤ 23) (hom : om ≤ 59) :
    renderOffset (if neg then -(((oh * 3600 + om * 60) * 1000000 : Nat) : Int)
      else (((oh * 3600 + om * 60) * 1000000 : Nat) : Int)) =
      (if neg ∧ 0 < oh * 60 + om then '-' else '+') :: (pad2 oh ++ pad2 om) := by
  have e1 : (oh * 3600 + om * 60) * 1000000 / 1000000 = oh * 3600 + om * 60 := by omega
  have e2 : (oh * 3600 + om * 60) * 1000000 % 1000000 = 0 := by omega
  have e3 : (oh * 3600 + om * 60) / 3600 = oh := by omega
  have e4 : (oh * 3600 + om * 60) % 3600 / 60 = om := by omega
  have e5 : (oh * 3600 + om * 60) % 60 = 0 := by omega
  cases neg
  · show renderOffset (((oh * 3600 + om * 60) * 1000000 : Nat) : Int) =
      (if (false : Bool) = true ∧ 0 < oh * 60 + om then '-' else '+') ::
        (pad2 oh ++ pad2 om)
    rw [if_neg (fun hc => absurd hc.1 (by decide))]
    simp only [renderOffset]
    rw [if_neg (by exact not_lt.mpr (Int.natCast_nonneg _))]
    simp only [Int.natAbs_ofNat]
    rw [e1, e2, e3, e4, e5, if_pos ⟨rfl, rfl⟩, List.append_nil]
  · show renderOffset (-(((oh * 3600 + om * 60) * 1000000 : Nat) : Int)) =
      (if (true : Bool) = true ∧ 0 < oh * 60 + om then '-' else '+') ::
        (pad2 oh ++ pad2 om)
    by_cases hz : 0 < oh * 60 + om
    · rw [if_pos ⟨rfl, hz⟩]
      simp only [renderOffset]
      rw [if_pos (by exact neg_lt_zero.mpr (by exact_mod_cast (by omega : 0 < (oh * 3600 + om * 60) * 1000000)))]
      simp only [Int.natAbs_neg, Int.natAbs_ofNat]
      rw [e1, e2, e3, e4, e5, if_pos ⟨rfl, rfl⟩, List.append_nil]
    · rw [if_neg (fun hc => hz hc.2)]
      have hoh0 : oh = 0 := by omega
      have hom0 : om = 0 := by omega
      subst hoh0
      subst hom0
      decide

theorem strftimeDisplay_pad (y mo d h mi s micro : Nat) (neg : Bool) (oh om : Nat)
    (hoh : oh ≤ 23) (hom : om ≤ 59) :
    strftimeDisplay ⟨y, mo, d, h, mi, s, micro,
      if neg then -(((oh * 3600 + om * 60) * 1000000 : Nat) : Int)
      else (((oh * 3600 + om * 60) * 1000000 : Nat) : Int)⟩ =
      displayPlain y mo d h mi s neg oh om := by
  simp only [strftimeDisplay, displayPlain, renderOffset_pad neg oh om hoh hom]

theorem formatCommentDate_plain (y mo d h mi s : Nat) (neg : Bool) (oh om : Nat)
    (h1 : 1 ≤ y) (h2 : y ≤ 9999) (h3 : 1 ≤ mo) (h4 : mo ≤ 12) (h5 : 1 ≤ d)
    (h6 : d ≤ daysInMonth y mo) (h7 : h ≤ 23) (h8 : mi ≤ 59) (h9 : s ≤ 59)
    (h10 : oh ≤ 23) (h11 : om ≤ 59) :
    formatCommentDate (isoPlain y mo d h mi s neg oh om) =
      .ok (displayPlain y mo d h mi s neg oh om) := by
  have hd31 : d ≤ 31 := le_trans h6 (daysInMonth_le31 y mo)
  have hoff : (if neg then -(((oh * 3600 + om * 60) * 1000000 : Nat) : Int)
      else (((oh * 3600 + om * 60) * 1000000 : Nat) : Int)).natAbs <
      24 * 3600 * 1000000 := by
    cases neg
    · show ((((oh * 3600 + om * 60) * 1000000 : Nat) : Int)).natAbs < 24 * 3600 * 1000000
      rw [Int.natAbs_ofNat]
      omega
    · show (-(((oh * 3600 + om * 60) * 1000000 : Nat) : Int)).natAbs < 24 * 3600 * 1000000
      rw [Int.natAbs_neg, Int.natAbs_ofNat]
      omega
  have hmk : mkDatetime y mo d h mi s 0
      (if neg then -(((oh * 3600 + om * 60) * 1000000 : Nat) : Int)
       else (((oh * 3600 + om * 60) * 1000000 : Nat) : Int)) =
      some ⟨y, mo, d, h, mi, s, 0,
        if neg then -(((oh * 3600 + om * 60) * 1000000 : Nat) : Int)
        else (((oh * 3600 + om * 60) * 1000000 : Nat) : Int)⟩ := by
    rw [mkDatetime, if_pos ⟨h1, h2, h3, h4, h5, h6, h7, h8, h9, by omega, hoff⟩]
  simp only [formatCommentDate,
    strptime_frac_on_plain y mo d h mi s neg oh om h2 h3 h4 h5 hd31 h7 h8 h9,
    strptime_plain_ok y mo d h mi s neg oh om h2 h3 h4 h5 hd31 h7 h8 h9 h10 h11,
    hmk, strftimeDisplay_pad y mo d h mi s 0 neg oh om h10 h11]

theorem formatCommentDate_frac (y mo d h mi s f : Nat) (neg : Bool) (oh om : Nat)
    (h1 : 1 ≤ y) (h2 : y ≤ 9999) (h3 : 1 ≤ mo) (h4 : mo ≤ 12) (h5 : 1 ≤ d)
    (h6 : d ≤ daysInMonth y mo) (h7 : h ≤ 23) (h8 : mi ≤ 59) (h9 : s ≤ 59)
    (hf : f ≤ 999999) (h10 : oh ≤ 23) (h11 : om ≤ 59) :
    formatCommentDate (isoFrac y mo d h mi s f neg oh om) =
      .ok (displayPlain y mo d h mi s neg oh om) := by
  have hd31 : d ≤ 31 := le_trans h6 (daysInMonth_le31 y mo)
  have hoff : (if neg then -(((oh * 3600 + om * 60) * 1000000 : Nat) : Int)
      else (((oh * 3600 + om * 60) * 1000000 : Nat) : Int)).natAbs <
      24 * 3600 * 1000000 := by
    cases neg
    · show ((((oh * 3600 + om * 60) * 1000000 : Nat) : Int)).natAbs < 24 * 3600 * 1000000
      rw [Int.natAbs_ofNat]
      omega
    · show (-(((oh * 3600 + om * 60) * 1000000 : Nat) : Int)).natAbs < 24 * 3600 * 1000000
      rw [Int.natAbs_neg, Int.natAbs_ofNat]
      omega
  have hmk : mkDatetime y mo d h mi s f
      (if neg then -(((oh * 3600 + om * 60) * 1000000 : Nat) : Int)
       else (((oh * 3600 + om * 60) * 1000000 : Nat) : Int)) =
      some ⟨y, mo, d, h, mi, s, f,
        if neg then -(((oh * 3600 + om * 60) * 1000000 : Nat) : Int)
        else (((oh * 3600 + om * 60) * 1000000 : Nat) : Int)⟩ := by
    rw [mkDatetime, if_pos ⟨h1, h2, h3, h4, h5, h6, h7, h8, h9, hf, hoff⟩]
  simp only [formatCommentDate,
    strptime_frac_ok y mo d h mi s f neg oh om h2 h3 h4 h5 hd31 h7 h8 h9 hf h10 h11,
    hmk, strftimeDisplay_pad y mo d h mi s f neg oh om h10 h11]

/-- C8 (counterexample): timestamp parsing does not accept *exactly* the two
claimed formats. The input `2024-01-02T03:04:05+00:00` matches neither
`YYYY-MM-DDTHH:MM:SS±HHMM` nor `YYYY-MM-DDTHH:MM:SS.ffffff±HHMM` read
literally (its offset has a colon), yet `datetime.strptime` with
`%Y-%m-%dT%H:%M:%S%z` accepts it (`%z` admits `±HH:MM`, `Z` and offsets with
seconds, `%f` admits 1-6 digits, and the numeric fields admit 1-digit
values), and line 158 renders it `2024-01-02 03:04:05 +0000`. -/
theorem claim_C8_counterexample :
    specExactPlain "2024-01-02T03:04:05+00:00" = false ∧
    specExactFrac "2024-01-02T03:04:05+00:00" = false ∧
    formatCommentDate "2024-01-02T03:04:05+00:00" = .ok "2024-01-02 03:04:05 +0000" :=
  ⟨rfl, rfl, rfl⟩

/-- C8 (amended): both claimed formats are accepted — every in-range
timestamp of the exact shape `YYYY-MM-DDTHH:MM:SS±HHMM` or
`YYYY-MM-DDTHH:MM:SS.ffffff±HHMM` parses, and is rendered for display as
`YYYY-MM-DD HH:MM:SS ±HHMM` (lines 153-158; the fraction is dropped by the
display format) — and any input rejected by both `strptime` formats is a
propagated, uncaught `ValueError`; but the two claimed shapes are not the
*only* accepted inputs (see the counterexample). -/
theorem claim_C8_amended :
    (∀ y mo d h mi s : Nat, ∀ neg : Bool, ∀ oh om : Nat,
      1 ≤ y → y ≤ 9999 → 1 ≤ mo → mo ≤ 12 → 1 ≤ d → d ≤ daysInMonth y mo →
      h ≤ 23 → mi ≤ 59 → s ≤ 59 → oh ≤ 23 → om ≤ 59 →
      formatCommentDate (isoPlain y mo d h mi s neg oh om) =
        .ok (displayPlain y mo d h mi s neg oh om)) ∧
    (∀ y mo d h mi s f : Nat, ∀ neg : Bool, ∀ oh om : Nat,
      1 ≤ y → y ≤ 9999 → 1 ≤ mo → mo ≤ 12 → 1 ≤ d → d ≤ daysInMonth y mo →
      h ≤ 23 → mi ≤ 59 → s ≤ 59 → f ≤ 999999 → oh ≤ 23 → om ≤ 59 →
      formatCommentDate (isoFrac y mo d h mi s f neg oh om) =
        .ok (displayPlain y mo d h mi s neg oh om)) ∧
    (∀ str : String, strptimeCore true str.data = none →
      strptimeCore false str.data = none →
      formatCommentDate str = .error "ValueError") :=
  ⟨fun y mo d h mi s neg oh om h1 h2 h3 h4 h5 h6 h7 h8 h9 h10 h11 =>
      formatCommentDate_plain y mo d h mi s neg oh om h1 h2 h3 h4 h5 h6 h7 h8 h9 h10 h11,
   fun y mo d h mi s f neg oh om h1 h2 h3 h4 h5 h6 h7 h8 h9 hf h10 h11 =>
      formatCommentDate_frac y mo d h mi s f neg oh om h1 h2 h3 h4 h5 h6 h7 h8 h9 hf h10 h11,
   fun str hfr hpl => by rw [formatCommentDate, hfr, hpl]⟩

theorem claim_C8_witness :
    formatCommentDate (isoPlain 2024 1 2 3 4 5 false 0 0) =
      .ok (displayPlain 2024 1 2 3 4 5 false 0 0) ∧
    formatCommentDate (isoFrac 2024 12 31 23 59 59 999999 true 23 59) =
      .ok (displayPlain 2024 12 31 23 59 59 true 23 59) ∧
    formatCommentDate "x" = .error "ValueError" :=
  ⟨claim_C8_amended.1 2024 1 2 3 4 5 false 0 0 (by decide) (by decide) (by decide)
      (by decide) (by decide) (by decide) (by decide) (by decide) (by decide)
      (by decide) (by decide),
   claim_C8_amended.2.1 2024 12 31 23 59 59 999999 true 23 59 (by decide) (by decide)
      (by decide) (by decide) (by decide) (by decide) (by decide) (by decide)
      (by decide) (by decide) (by decide) (by decide),
   claim_C8_amended.2.2 "x" rfl rfl⟩
